import Mathlib

/-!
Verification of the load-flow solving engine of the Load_flow_program
repository (src/algorithms/newton_raphson.py, src/algorithms/gauss_seidel.py,
src/algorithms/fast_decoupled.py, driven by src/gui.py).

Modelling conventions:
* Python floats are embedded as exact rationals `ℚ`; complex values as `Cx`
  (a pair of rationals).  Transcendental operations (`np.abs` on complex,
  `np.angle`, `cos`, `sin`, `sqrt`, `np.radians`, `exp(1j*θ)`) and the dense
  linear solve `np.linalg.solve` have no exact rational realisation, so every
  solver definition is parameterised by a `Params` record supplying them;
  theorems hold for every choice of these parameters unless stated otherwise.
  `np.linalg.solve` may raise `LinAlgError` on a singular matrix, hence the
  `linsolve` parameter is `Option`-valued (`none` models the exception).
* The admittance matrix is a total function `ℕ → ℕ → Cx` (dense);
  the sparse branch of `NRLoadFlow.build_ybus` performs the same arithmetic in
  a different storage format and is not distinguished here.  Bus indices in
  line records are taken 1-based and in range (the GUI supplies such tables);
  theorems about the builders carry explicit range hypotheses.
* Rational division totalises Python's raising division: `q / 0 = 0` in `ℚ`.
  The one place where the source genuinely divides by an exactly-zero complex
  number — `GaussSeidel.build_ybus` on a zero-impedance line — is embedded
  with an explicit `Except` error modelling the `ZeroDivisionError` that
  `GaussSeidel.solve` converts into a `RuntimeError`.
* Iteration-trace records store the underlying numeric data (iteration
  number, mismatch metrics, voltage snapshot); the source formats some of
  these as strings, a purely presentational step that is not modelled.
-/

/-- Complex numbers with rational components, embedding Python `complex`
(whose components are floats, modelled exactly). -/
structure Cx where
  re : ℚ
  im : ℚ
deriving DecidableEq, Repr

namespace Cx

theorem ext' {a b : Cx} (h1 : a.re = b.re) (h2 : a.im = b.im) : a = b := by
  rcases a with ⟨ar, ai⟩; rcases b with ⟨br, bi⟩
  simp only at h1 h2; rw [h1, h2]

theorem ext_iff' {a b : Cx} : a = b ↔ a.re = b.re ∧ a.im = b.im := by
  constructor
  · rintro rfl; exact ⟨rfl, rfl⟩
  · rintro ⟨h1, h2⟩; exact ext' h1 h2

instance : Zero Cx := ⟨⟨0, 0⟩⟩
instance : One Cx := ⟨⟨1, 0⟩⟩
instance : Add Cx := ⟨fun a b => ⟨a.re + b.re, a.im + b.im⟩⟩
instance : Neg Cx := ⟨fun a => ⟨-a.re, -a.im⟩⟩
instance : Sub Cx := ⟨fun a b => ⟨a.re - b.re, a.im - b.im⟩⟩
instance : Mul Cx := ⟨fun a b => ⟨a.re * b.re - a.im * b.im, a.re * b.im + a.im * b.re⟩⟩
instance : SMul ℚ Cx := ⟨fun q a => ⟨q * a.re, q * a.im⟩⟩

@[simp] theorem zero_re : (0 : Cx).re = 0 := rfl
@[simp] theorem zero_im : (0 : Cx).im = 0 := rfl
@[simp] theorem one_re : (1 : Cx).re = 1 := rfl
@[simp] theorem one_im : (1 : Cx).im = 0 := rfl
@[simp] theorem add_re (a b : Cx) : (a + b).re = a.re + b.re := rfl
@[simp] theorem add_im (a b : Cx) : (a + b).im = a.im + b.im := rfl
@[simp] theorem neg_re (a : Cx) : (-a).re = -a.re := rfl
@[simp] theorem neg_im (a : Cx) : (-a).im = -a.im := rfl
@[simp] theorem sub_re (a b : Cx) : (a - b).re = a.re - b.re := rfl
@[simp] theorem sub_im (a b : Cx) : (a - b).im = a.im - b.im := rfl
@[simp] theorem mul_re (a b : Cx) : (a * b).re = a.re * b.re - a.im * b.im := rfl
@[simp] theorem mul_im (a b : Cx) : (a * b).im = a.re * b.im + a.im * b.re := rfl
@[simp] theorem smul_re (q : ℚ) (a : Cx) : (q • a).re = q * a.re := rfl
@[simp] theorem smul_im (q : ℚ) (a : Cx) : (q • a).im = q * a.im := rfl

instance : CommRing Cx where
  add_assoc a b c := ext'
    (by simp only [add_re]; ring) (by simp only [add_im]; ring)
  zero_add a := ext'
    (by simp only [add_re, zero_re]; ring) (by simp only [add_im, zero_im]; ring)
  add_zero a := ext'
    (by simp only [add_re, zero_re]; ring) (by simp only [add_im, zero_im]; ring)
  add_comm a b := ext'
    (by simp only [add_re]; ring) (by simp only [add_im]; ring)
  neg_add_cancel a := ext'
    (by simp only [add_re, neg_re, zero_re]; ring)
    (by simp only [add_im, neg_im, zero_im]; ring)
  mul_assoc a b c := ext'
    (by simp only [mul_re, mul_im]; ring) (by simp only [mul_re, mul_im]; ring)
  one_mul a := ext'
    (by simp only [mul_re, mul_im, one_re, one_im]; ring)
    (by simp only [mul_re, mul_im, one_re, one_im]; ring)
  mul_one a := ext'
    (by simp only [mul_re, mul_im, one_re, one_im]; ring)
    (by simp only [mul_re, mul_im, one_re, one_im]; ring)
  left_distrib a b c := ext'
    (by simp only [mul_re, mul_im, add_re, add_im]; ring)
    (by simp only [mul_re, mul_im, add_re, add_im]; ring)
  right_distrib a b c := ext'
    (by simp only [mul_re, mul_im, add_re, add_im]; ring)
    (by simp only [mul_re, mul_im, add_re, add_im]; ring)
  mul_comm a b := ext'
    (by simp only [mul_re, mul_im]; ring) (by simp only [mul_re, mul_im]; ring)
  sub_eq_add_neg a b := ext'
    (by simp only [sub_re, add_re, neg_re]; ring)
    (by simp only [sub_im, add_im, neg_im]; ring)
  zero_mul a := ext'
    (by simp only [mul_re, mul_im, zero_re, zero_im]; ring)
    (by simp only [mul_re, mul_im, zero_re, zero_im]; ring)
  mul_zero a := ext'
    (by simp only [mul_re, mul_im, zero_re, zero_im]; ring)
    (by simp only [mul_re, mul_im, zero_re, zero_im]; ring)
  nsmul := nsmulRec
  zsmul := zsmulRec

/-- Complex conjugate (`z.conjugate()` / `np.conj`). -/
def conj (a : Cx) : Cx := ⟨a.re, -a.im⟩

/-- Squared magnitude `|z|²` (exact, rational). -/
def normSq (a : Cx) : ℚ := a.re * a.re + a.im * a.im

/-- Python `1/z` for complex `z` (total: yields 0 at 0, where Python raises;
every use below either guards the zero case explicitly or is reached only
with a nonzero denominator). -/
def cinv (a : Cx) : Cx := (1 / normSq a) • conj a

/-- Python complex division `a / b`. -/
def cdiv (a b : Cx) : Cx := a * cinv b

@[simp] theorem conj_re (a : Cx) : (conj a).re = a.re := rfl
@[simp] theorem conj_im (a : Cx) : (conj a).im = -a.im := rfl

theorem normSq_apply (a : Cx) : normSq a = a.re * a.re + a.im * a.im := rfl

end Cx

/-- A line (branch) record: 1-based endpoint bus ids, series resistance `r`,
series reactance `x`, total shunt susceptance `b` (from the line table rows
`[from, to, r, x, b]`; ids are held as naturals, matching `int(line[0])` on
the well-formed tables the GUI produces). -/
structure Line where
  fbus : ℕ
  tbus : ℕ
  r : ℚ
  x : ℚ
  b : ℚ
deriving DecidableEq, Repr

/-- Admittance matrices are dense total functions on indices. -/
def YMat : Type := ℕ → ℕ → Cx

/-- The four accumulations a single line performs on the matrix
(`Ybus[i,i] += y + b_shunt; Ybus[j,j] += y + b_shunt;
 Ybus[i,j] -= y; Ybus[j,i] -= y`), written as one pointwise sum — the
`+=`/`-=` updates are additive, so their sequential composition equals this
closed form (including the self-loop case `i = j`). -/
def lineUpd (M : YMat) (i j : ℕ) (y bs : Cx) : YMat := fun p q =>
  M p q + (if p = i ∧ q = i then y + bs else 0)
        + (if p = j ∧ q = j then y + bs else 0)
        - (if p = i ∧ q = j then y else 0)
        - (if p = j ∧ q = i then y else 0)

/-- Threshold `1e-12` of the degenerate-line test in `NRLoadFlow.build_ybus`. -/
def eps12 : ℚ := 1 / 10 ^ 12

/-- A line is degenerate when `abs(r) < 1e-12 and abs(x) < 1e-12`
(`newton_raphson.py` line 34). -/
def degenerate (l : Line) : Prop := |l.r| < eps12 ∧ |l.x| < eps12

instance (l : Line) : Decidable (degenerate l) := by
  unfold degenerate; infer_instance

/-- One step of `NRLoadFlow.build_ybus`'s loop over lines: a degenerate line
is skipped with a warning (`warnings.warn`, recorded here as the endpoint
pair); otherwise the series admittance `y = 1/(r+jx)` and half-shunt
`j*b/2` are accumulated onto the four affected entries. -/
def nrBuildStep (acc : YMat × List (ℕ × ℕ)) (l : Line) : YMat × List (ℕ × ℕ) :=
  if degenerate l then
    (acc.1, acc.2 ++ [(l.fbus, l.tbus)])
  else
    (lineUpd acc.1 (l.fbus - 1) (l.tbus - 1) (Cx.cinv ⟨l.r, l.x⟩) ⟨0, l.b / 2⟩, acc.2)

/-- Embeds `NRLoadFlow.build_ybus`: fold over the line records starting from the
zero matrix; returns the matrix together with the emitted warnings. -/
def nrBuildYbus (lines : List Line) : YMat × List (ℕ × ℕ) :=
  lines.foldl nrBuildStep (fun _ _ => 0, [])

/-- One step of `GaussSeidel.build_ybus`'s loop: no degenerate-line check;
`y = 1/z` raises `ZeroDivisionError` when `z == 0`, which propagates out of
the builder (caught and re-raised as `RuntimeError` by `GaussSeidel.solve`). -/
def gsBuildStep (acc : Except String YMat) (l : Line) : Except String YMat :=
  match acc with
  | .error e => .error e
  | .ok M =>
    if (⟨l.r, l.x⟩ : Cx) = 0 then
      .error "ZeroDivisionError: complex division by zero"
    else
      .ok (lineUpd M (l.fbus - 1) (l.tbus - 1) (Cx.cinv ⟨l.r, l.x⟩) ⟨0, l.b / 2⟩)

/-- Embeds `GaussSeidel.build_ybus`. -/
def gsBuildYbus (lines : List Line) : Except String YMat :=
  lines.foldl gsBuildStep (.ok (fun _ _ => 0))

/-- Whether an `Except` is an error. -/
def isErr {ε α : Type} (e : Except ε α) : Bool :=
  match e with
  | .error _ => true
  | .ok _ => false

/-- A matrix is symmetric. -/
def YSym (M : YMat) : Prop := ∀ p q : ℕ, M p q = M q p

theorem gsBuildStep_error (e : String) (l : Line) :
    gsBuildStep (.error e) l = .error e := rfl

theorem gsBuild_error_absorb (ls : List Line) (e : String) :
    ls.foldl gsBuildStep (.error e) = .error e := by
  induction ls with
  | nil => rfl
  | cons a b ih => simp only [List.foldl_cons, gsBuildStep_error]; exact ih

theorem lineUpd_sym {M : YMat} (h : YSym M) (i j : ℕ) (y bs : Cx) :
    YSym (lineUpd M i j y bs) := by
  intro p q
  unfold lineUpd
  rw [h p q]
  have c1 : (p = i ∧ q = i) = (q = i ∧ p = i) := propext and_comm
  have c2 : (p = j ∧ q = j) = (q = j ∧ p = j) := propext and_comm
  have c3 : (p = i ∧ q = j) = (q = j ∧ p = i) := propext and_comm
  have c4 : (p = j ∧ q = i) = (q = i ∧ p = j) := propext and_comm
  simp only [c1, c2, c3, c4]
  exact sub_right_comm _ _ _

theorem nrBuild_go_sym (lines : List Line) (M : YMat) (w : List (ℕ × ℕ))
    (h : YSym M) : YSym (lines.foldl nrBuildStep (M, w)).1 := by
  induction lines generalizing M w with
  | nil => exact h
  | cons l rest ih =>
    simp only [List.foldl_cons]
    unfold nrBuildStep
    by_cases hd : degenerate l
    · simp only [if_pos hd]; exact ih M _ h
    · simp only [if_neg hd]; exact ih _ w (lineUpd_sym h _ _ _ _)

theorem gsBuild_go_sym (ls : List Line) (M : YMat) (hM : YSym M)
    (hnz : ∀ l ∈ ls, (⟨l.r, l.x⟩ : Cx) ≠ 0) :
    ∃ M' : YMat, ls.foldl gsBuildStep (.ok M) = .ok M' ∧ YSym M' := by
  induction ls generalizing M with
  | nil => exact ⟨M, rfl, hM⟩
  | cons l rest ih =>
    simp only [List.foldl_cons]
    have hz : (⟨l.r, l.x⟩ : Cx) ≠ 0 := hnz l (List.mem_cons_self l rest)
    have hstep : gsBuildStep (.ok M) l =
        .ok (lineUpd M (l.fbus - 1) (l.tbus - 1) (Cx.cinv ⟨l.r, l.x⟩) ⟨0, l.b / 2⟩) := by
      unfold gsBuildStep
      simp only [if_neg hz]
    rw [hstep]
    exact ih _ (lineUpd_sym hM _ _ _ _)
      (fun a ha => hnz a (List.mem_cons_of_mem l ha))

/-- C7 — For every set of line records, the Newton-Raphson builder's matrix is
symmetric at every pair of indices; and whenever no line has an exactly-zero
impedance the Gauss-Seidel builder succeeds and its matrix is likewise
symmetric.  (The NR half needs no hypothesis: skipped degenerate lines cannot
break symmetry.) -/
theorem C7_ybus_symmetric (lines : List Line) :
    (∀ p q : ℕ, (nrBuildYbus lines).1 p q = (nrBuildYbus lines).1 q p) ∧
    ((∀ l ∈ lines, (⟨l.r, l.x⟩ : Cx) ≠ 0) →
      ∃ M : YMat, gsBuildYbus lines = .ok M ∧ ∀ p q : ℕ, M p q = M q p) := by
  constructor
  · exact nrBuild_go_sym lines _ [] (fun _ _ => rfl)
  · intro hnz
    obtain ⟨M', h1, h2⟩ := gsBuild_go_sym lines (fun _ _ => 0) (fun _ _ => rfl) hnz
    exact ⟨M', h1, h2⟩

/-- Witness for C7 on the repository's own 3-bus test system. -/
theorem C7_ybus_symmetric_witness :
    (∀ l ∈ [⟨1, 2, 1/50, 3/50, 3/50⟩, ⟨1, 3, 2/25, 6/25, 1/20⟩,
            (⟨2, 3, 3/50, 9/50, 1/25⟩ : Line)], (⟨l.r, l.x⟩ : Cx) ≠ 0) ∧
    (∃ M : YMat, gsBuildYbus [⟨1, 2, 1/50, 3/50, 3/50⟩, ⟨1, 3, 2/25, 6/25, 1/20⟩,
            (⟨2, 3, 3/50, 9/50, 1/25⟩ : Line)] = .ok M ∧ ∀ p q : ℕ, M p q = M q p) := by
  have hnz : ∀ l ∈ [⟨1, 2, 1/50, 3/50, 3/50⟩, ⟨1, 3, 2/25, 6/25, 1/20⟩,
      (⟨2, 3, 3/50, 9/50, 1/25⟩ : Line)], (⟨l.r, l.x⟩ : Cx) ≠ 0 := by
    intro l hl
    fin_cases hl <;> simp [Cx.ext_iff']
  exact ⟨hnz, (C7_ybus_symmetric _).2 hnz⟩

/-! ### C3: degenerate (zero-impedance) lines -/

/-- Boolean form of the degenerate-line test. -/
def degb (l : Line) : Bool := decide (degenerate l)

theorem nrBuild_fst_filter (lines : List Line) : ∀ M : YMat, ∀ w w' : List (ℕ × ℕ),
    (lines.foldl nrBuildStep (M, w)).1 =
      ((lines.filter (fun l => !degb l)).foldl nrBuildStep (M, w')).1 := by
  induction lines with
  | nil => intro M w w'; rfl
  | cons l rest ih =>
    intro M w w'
    simp only [List.foldl_cons, List.filter_cons]
    by_cases hd : degenerate l
    · have hb : (!degb l) = false := by simp [degb, hd]
      rw [hb]
      simp only [Bool.false_eq_true, if_false]
      have hstep : nrBuildStep (M, w) l = (M, w ++ [(l.fbus, l.tbus)]) := by
        unfold nrBuildStep; simp only [if_pos hd]
      rw [hstep]
      exact ih M _ w'
    · have hb : (!degb l) = true := by simp [degb, hd]
      rw [hb]
      simp only [if_true, List.foldl_cons]
      have hstep : ∀ w0 : List (ℕ × ℕ), nrBuildStep (M, w0) l =
          (lineUpd M (l.fbus - 1) (l.tbus - 1) (Cx.cinv ⟨l.r, l.x⟩) ⟨0, l.b / 2⟩, w0) := by
        intro w0; unfold nrBuildStep; simp only [if_neg hd]
      rw [hstep w, hstep w']
      exact ih _ w w'

theorem nrBuild_snd_warnings (lines : List Line) : ∀ M : YMat, ∀ w : List (ℕ × ℕ),
    (lines.foldl nrBuildStep (M, w)).2 =
      w ++ (lines.filter degb).map (fun l => (l.fbus, l.tbus)) := by
  induction lines with
  | nil => intro M w; simp
  | cons l rest ih =>
    intro M w
    simp only [List.foldl_cons, List.filter_cons]
    by_cases hd : degenerate l
    · have hb : degb l = true := by simp [degb, hd]
      rw [hb]
      simp only [if_true]
      have hstep : nrBuildStep (M, w) l = (M, w ++ [(l.fbus, l.tbus)]) := by
        unfold nrBuildStep; simp only [if_pos hd]
      rw [hstep, ih]
      simp
    · have hb : degb l = false := by simp [degb, hd]
      rw [hb]
      simp only [Bool.false_eq_true, if_false]
      have hstep : nrBuildStep (M, w) l =
          (lineUpd M (l.fbus - 1) (l.tbus - 1) (Cx.cinv ⟨l.r, l.x⟩) ⟨0, l.b / 2⟩, w) := by
        unfold nrBuildStep; simp only [if_neg hd]
      rw [hstep, ih]

theorem gsBuild_hits_error (lines : List Line) : ∀ M : YMat, ∀ l ∈ lines,
    (⟨l.r, l.x⟩ : Cx) = 0 → isErr (lines.foldl gsBuildStep (.ok M)) = true := by
  induction lines with
  | nil => intro M l hl; cases hl
  | cons a rest ih =>
    intro M l hl hz
    simp only [List.foldl_cons]
    by_cases ha : (⟨a.r, a.x⟩ : Cx) = 0
    · have hstep : gsBuildStep (.ok M) a =
          .error "ZeroDivisionError: complex division by zero" := by
        unfold gsBuildStep; simp only [if_pos ha]
      rw [hstep, gsBuild_error_absorb]
      rfl
    · have hstep : gsBuildStep (.ok M) a =
          .ok (lineUpd M (a.fbus - 1) (a.tbus - 1) (Cx.cinv ⟨a.r, a.x⟩) ⟨0, a.b / 2⟩) := by
        unfold gsBuildStep; simp only [if_neg ha]
      rw [hstep]
      rcases List.mem_cons.mp hl with rfl | hmem
      · exact absurd hz ha
      · exact ih _ l hmem hz

/-- C3 counterexample — the claim asserts that the admittance-matrix builder
of *every* solver skips a zero-impedance line with a warning and without
raising.  `GaussSeidel.build_ybus` has no such check: on the line record
`(1, 2, r=0, x=0, b=0)` it divides by the zero impedance, raising
`ZeroDivisionError` (re-raised by `GaussSeidel.solve` as a `RuntimeError`). -/
theorem C3_counterexample_gs_builder_raises :
    isErr (gsBuildYbus [⟨1, 2, 0, 0, 0⟩]) = true := by
  have h0 : (⟨(0 : ℚ), (0 : ℚ)⟩ : Cx) = 0 := rfl
  exact gsBuild_hits_error [⟨1, 2, 0, 0, 0⟩] (fun _ _ => 0) _
    (List.mem_singleton.mpr rfl) h0

/-- C3 amended — Only `NRLoadFlow.build_ybus` implements the degenerate-line
policy: lines with `|r| < 1e-12` and `|x| < 1e-12` are skipped (the produced
matrix is the one built from the non-degenerate lines alone, so all entries
are unaffected by them) and one warning is emitted per skipped line.
`GaussSeidel.build_ybus` performs no check and raises on any line whose
impedance is exactly zero. -/
theorem C3_amended_degenerate_line_policy (lines : List Line) :
    ((nrBuildYbus lines).1 = (nrBuildYbus (lines.filter (fun l => !degb l))).1 ∧
     (nrBuildYbus lines).2 = (lines.filter degb).map (fun l => (l.fbus, l.tbus))) ∧
    (∀ l ∈ lines, l.r = 0 → l.x = 0 → isErr (gsBuildYbus lines) = true) := by
  refine ⟨⟨?_, ?_⟩, ?_⟩
  · unfold nrBuildYbus
    exact nrBuild_fst_filter lines _ [] []
  · unfold nrBuildYbus
    exact (nrBuild_snd_warnings lines _ []).trans (by simp)
  · intro l hl hr hx
    have hz : (⟨l.r, l.x⟩ : Cx) = 0 := by
      rw [Cx.ext_iff']; exact ⟨hr, hx⟩
    exact gsBuild_hits_error lines _ l hl hz

/-- Witness for C3's amended statement: a mixed list with one degenerate and
one healthy line for the NR half, and the zero-impedance list for the GS
half. -/
theorem C3_amended_witness :
    ((nrBuildYbus [⟨1, 2, 0, 0, 0⟩, ⟨1, 2, 1/50, 3/50, 0⟩]).1 =
      (nrBuildYbus ([⟨1, 2, 0, 0, 0⟩, ⟨1, 2, 1/50, 3/50, 0⟩].filter
        (fun l => !degb l))).1 ∧
     (nrBuildYbus [⟨1, 2, 0, 0, 0⟩, ⟨1, 2, 1/50, 3/50, 0⟩]).2 =
      ([⟨1, 2, 0, 0, 0⟩, (⟨1, 2, 1/50, 3/50, 0⟩ : Line)].filter degb).map
        (fun l => (l.fbus, l.tbus))) ∧
    ((⟨1, 2, 0, 0, 0⟩ : Line) ∈ [⟨1, 2, 0, 0, 0⟩, (⟨1, 2, 1/50, 3/50, 0⟩ : Line)] ∧
     isErr (gsBuildYbus [⟨1, 2, 0, 0, 0⟩, ⟨1, 2, 1/50, 3/50, 0⟩]) = true) := by
  refine ⟨(C3_amended_degenerate_line_policy _).1, ?_, ?_⟩
  · exact List.mem_cons_self _ _
  · exact (C3_amended_degenerate_line_policy _).2 ⟨1, 2, 0, 0, 0⟩
      (List.mem_cons_self _ _) rfl rfl

/-! ### Shared solver infrastructure -/

/-- A bus-table row (columns: id, type code, |V| set-point, angle set-point
in degrees, P-gen, Q-gen, P-load, Q-load).  The 1-based id column is
positional in the source and not needed here; `typ` is read with
`astype(int)`. -/
structure Bus where
  typ : ℤ
  Vset : ℚ
  thetaSet : ℚ
  PG : ℚ
  QG : ℚ
  PL : ℚ
  QL : ℚ
deriving DecidableEq, Repr

/-- A network: the bus table, the optional Qmin/Qmax columns (present when
the table has at least 10 columns, `bus_data.shape[1] >= 10`), the line
table, and the base power. -/
structure Net where
  buses : List Bus
  qlim : Option (List (ℚ × ℚ))
  lines : List Line
  Sbase : ℚ
deriving DecidableEq, Repr

/-- The transcendental / linear-algebra primitives the solvers call.  They
have no exact rational realisation, so the embedding is parameterised by
them; `linsolve` returns `none` to model `np.linalg.LinAlgError`. -/
structure Params where
  cabs : Cx → ℚ
  carg : Cx → ℚ
  cos : ℚ → ℚ
  sin : ℚ → ℚ
  sqrt : ℚ → ℚ
  radians : ℚ → ℚ
  cis : ℚ → Cx
  linsolve : (ℕ → ℕ → ℚ) → ℕ → List ℚ → Option (List ℚ)

/-- Pointwise update of a voltage vector (`V[i] = z`). -/
def updV (V : ℕ → Cx) (i : ℕ) (z : Cx) : ℕ → Cx := fun k => if k = i then z else V k

/-- Sum of a list of complex numbers. -/
def csum (l : List Cx) : Cx := l.foldr (· + ·) 0

/-- Bus type at index `i` (from `bus_data[:, 1].astype(int)`). -/
def typAt (buses : List Bus) (i : ℕ) : Option ℤ := (buses.get? i).map Bus.typ

/-- Embeds `np.clip` against optional limits: absent columns behave as
`(-inf, +inf)`, i.e. the identity. -/
def clipQ (q : ℚ) (lim : Option (ℚ × ℚ)) : ℚ :=
  match lim with
  | none => q
  | some (lo, hi) => min (max q lo) hi

/-- The per-unit Qmin/Qmax pair of bus `i` (columns 8 and 9 divided by
`Sbase`) when the bus table carries them. -/
def qlimAt (net : Net) (i : ℕ) : Option (ℚ × ℚ) :=
  match net.qlim with
  | none => none
  | some l => (l.get? i).map (fun p => (p.1 / net.Sbase, p.2 / net.Sbase))

@[simp] theorem updV_same (V : ℕ → Cx) (i : ℕ) (z : Cx) : updV V i z i = z := by
  simp [updV]

theorem updV_other (V : ℕ → Cx) (i j : ℕ) (z : Cx) (h : j ≠ i) :
    updV V i z j = V j := by
  simp [updV, h]

/-! ### Gauss-Seidel solver (`gauss_seidel.py`) -/

/-- Initial voltage vector of `GaussSeidel.solve` (lines 35-41): a slack bus
gets its set-point `|V|·exp(j·radians(θ))`; every other bus is seeded with
the constant `0.95 - 0.05j` regardless of its table voltage columns.
Indices beyond the table keep `np.ones`' fill value 1 (never read). -/
def gsInitV (P : Params) (buses : List Bus) : ℕ → Cx := fun i =>
  match buses.get? i with
  | none => 1
  | some b =>
    if b.typ = 1 then b.Vset • P.cis (P.radians b.thetaSet)
    else ⟨95/100, -(5/100)⟩

/-- The weighted neighbour sum `Σ_{k≠i} Y[i,k]·V[k]` over the *current*
voltage vector (lines 73-76). -/
def sumYV (Y : ℕ → ℕ → Cx) (nb : ℕ) (V : ℕ → Cx) (i : ℕ) : Cx :=
  csum (((List.range nb).filter (fun k => k ≠ i)).map (fun k => Y i k * V k))

/-- The full current injection `Ybus[i,:] @ V` (line 92 / line 119). -/
def dotYV (Y : ℕ → ℕ → Cx) (nb : ℕ) (V : ℕ → Cx) (i : ℕ) : Cx :=
  csum ((List.range nb).map (fun k => Y i k * V k))

/-- Intermediate values of one PV-bus update inside a Gauss-Seidel sweep. -/
structure GSPVParts where
  Qest : ℚ
  Qused : ℚ
  Vi : Cx
  Vnew : Cx
  Vpre : Cx
  result : Cx
deriving DecidableEq, Repr

/-- The PV-bus update of `GaussSeidel.solve` (lines 90-113): estimate the
reactive injection from the current voltages, clamp it to the Q-limits,
re-seed a near-zero own voltage with `(Vset, 0)`, solve the Gauss-Seidel
formula for a new voltage, renormalise it to the magnitude set-point *only
when* `abs(V_new) > 1e-12`, and blend with the acceleration factor. -/
def gsPVUpdate (P : Params) (Y : ℕ → ℕ → Cx) (nb : ℕ) (Vset : ℚ)
    (qlim : Option (ℚ × ℚ)) (PspecI : ℚ) (alpha : ℚ) (V : ℕ → Cx) (i : ℕ) :
    GSPVParts :=
  let Iinj := dotYV Y nb V i
  let Qest := (V i * Cx.conj Iinj).im
  let Qused := clipQ Qest qlim
  let S : Cx := ⟨PspecI, Qused⟩
  let Vi := if P.cabs (V i) < eps12 then (⟨Vset, 0⟩ : Cx) else V i
  let Vnew := Cx.cinv (Y i i) * (Cx.cdiv (Cx.conj S) (Cx.conj Vi) - sumYV Y nb V i)
  let Vpre := if eps12 < P.cabs Vnew then (Vset / P.cabs Vnew) • Vnew else Vnew
  ⟨Qest, Qused, Vi, Vnew, Vpre, alpha • Vpre + (1 - alpha) • Vi⟩

/-- The PQ-bus update of `GaussSeidel.solve` (lines 78-88): re-seed a
near-zero own voltage with `0.95 - 0.05j`, apply the standard Gauss-Seidel
formula for the specified complex power, and blend with the acceleration
factor. -/
def gsPQUpdate (Y : ℕ → ℕ → Cx) (nb : ℕ) (P : Params)
    (PspecI QspecI : ℚ) (alpha : ℚ) (V : ℕ → Cx) (i : ℕ) : Cx :=
  let S : Cx := ⟨PspecI, QspecI⟩
  let Vi := if P.cabs (V i) < eps12 then (⟨95/100, -(5/100)⟩ : Cx) else V i
  let Vnew := Cx.cinv (Y i i) * (Cx.cdiv (Cx.conj S) (Cx.conj Vi) - sumYV Y nb V i)
  alpha • Vnew + (1 - alpha) • Vi

/-- One bus visit of a Gauss-Seidel sweep (lines 67-128), threading the
running `(V, max_mis, max_power_mis)` state: slack buses are skipped, PQ and
PV buses are updated in place, then the voltage change against the pre-sweep
vector and the power-mismatch monitor are folded into the running maxima. -/
def gsBusStep (P : Params) (Y : ℕ → ℕ → Cx) (nb : ℕ) (net : Net)
    (Pspec Qspec : ℕ → ℚ) (alpha : ℚ) (Vprev : ℕ → Cx)
    (st : (ℕ → Cx) × ℚ × ℚ) (i : ℕ) : (ℕ → Cx) × ℚ × ℚ :=
  match (net.buses.get? i : Option Bus) with
  | none => st
  | some b =>
    let V := st.1
    if b.typ = 1 then st
    else
      let V1 :=
        if b.typ = 3 then
          updV V i (gsPQUpdate Y nb P (Pspec i) (Qspec i) alpha V i)
        else if b.typ = 2 then
          updV V i (gsPVUpdate P Y nb b.Vset (qlimAt net i) (Pspec i) alpha V i).result
        else V
      let mis := P.cabs (V1 i - Vprev i)
      let Iinj := dotYV Y nb V1 i
      let Scalc := V1 i * Cx.conj Iinj
      let pm :=
        if b.typ = 3 then
          max (max st.2.2 |Pspec i - Scalc.re|) |Qspec i - Scalc.im|
        else if b.typ = 2 then
          max st.2.2 |Pspec i - Scalc.re|
        else st.2.2
      (V1, max st.2.1 mis, pm)

/-- One full sweep over all buses (the `for i in range(nb)` body),
with the pre-sweep voltages `V` as `V_prev` and both maxima reset to 0. -/
def gsSweep (P : Params) (Y : ℕ → ℕ → Cx) (nb : ℕ) (net : Net)
    (Pspec Qspec : ℕ → ℚ) (alpha : ℚ) (V : ℕ → Cx) : (ℕ → Cx) × ℚ × ℚ :=
  (List.range nb).foldl (gsBusStep P Y nb net Pspec Qspec alpha V) (V, 0, 0)

/-- One iteration record of `GaussSeidel.solve` (lines 130-135); the source
formats the voltage snapshot as magnitude-angle strings, a presentational
step carried here as the raw complex snapshot. -/
structure GSRec where
  iteration : ℕ
  maxVmis : ℚ
  maxPmis : ℚ
  volts : List Cx
deriving DecidableEq, Repr

/-- Result of `GaussSeidel.solve`: the final voltage vector and the
`iter_data` list it returns, the internal `converged` flag (observable
through the non-convergence warning print), and the post-call instance
state. -/
structure GSInst where
  net : Net
  iterData : List GSRec
  Vfinal : Option (List Cx)
deriving DecidableEq, Repr

structure GSOut where
  V : ℕ → Cx
  trace : List GSRec
  converged : Bool
  inst : GSInst

/-- Snapshot of the first `nb` voltages. -/
def snapshot (nb : ℕ) (V : ℕ → Cx) : List Cx := (List.range nb).map V

/-- The record appended to `iter_data` by one Gauss-Seidel iteration. -/
def gsRecOf (nb : ℕ) (it : ℕ) (s : (ℕ → Cx) × ℚ × ℚ) : GSRec :=
  ⟨it + 1, s.2.1, s.2.2, snapshot nb s.1⟩

/-- The `for it in range(max_iter)` loop of `GaussSeidel.solve`
(lines 62-140), with explicit fuel; `acc` is the instance's `iter_data`
list, which is appended to and never cleared.  (The source computes the
sweep once per iteration; here the call is repeated textually, with the
same value.) -/
def gsLoop (P : Params) (Y : ℕ → ℕ → Cx) (nb : ℕ) (net : Net)
    (Pspec Qspec : ℕ → ℚ) (alpha tol : ℚ) :
    ℕ → ℕ → (ℕ → Cx) → List GSRec → (ℕ → Cx) × List GSRec × Bool
  | 0, _, V, acc => (V, acc, false)
  | fuel + 1, it, V, acc =>
    if (gsSweep P Y nb net Pspec Qspec alpha V).2.1 < tol then
      ((gsSweep P Y nb net Pspec Qspec alpha V).1,
       acc ++ [gsRecOf nb it (gsSweep P Y nb net Pspec Qspec alpha V)], true)
    else
      gsLoop P Y nb net Pspec Qspec alpha tol fuel (it + 1)
        (gsSweep P Y nb net Pspec Qspec alpha V).1
        (acc ++ [gsRecOf nb it (gsSweep P Y nb net Pspec Qspec alpha V)])

/-- The per-unit specified active power `PG/Sbase - PL/Sbase` of
`GaussSeidel.solve` (lines 44-57). -/
def gPspec (net : Net) : ℕ → ℚ := fun i =>
  match net.buses.get? i with
  | some b => b.PG / net.Sbase - b.PL / net.Sbase
  | none => 0

def gQspec (net : Net) : ℕ → ℚ := fun i =>
  match net.buses.get? i with
  | some b => b.QG / net.Sbase - b.QL / net.Sbase
  | none => 0

/-- Embeds `GaussSeidel.solve(tol, max_iter, alpha)` on an instance: builds the
admittance matrix (any exception — the zero-impedance division — is
re-raised as a `RuntimeError`), initialises voltages, derives the per-unit
specified powers, runs the sweep loop, and returns the final voltages
together with the instance's accumulated `iter_data`. -/
def gsSolve (P : Params) (g : GSInst) (tol : ℚ) (maxIter : ℕ) (alpha : ℚ) :
    Except String GSOut :=
  match gsBuildYbus g.net.lines with
  | .error e =>
    .error ("RuntimeError: An error occurred during Gauss-Seidel load flow calculation: " ++ e)
  | .ok Y =>
    .ok ⟨(gsLoop P Y g.net.buses.length g.net (gPspec g.net) (gQspec g.net)
            alpha tol maxIter 0 (gsInitV P g.net.buses) g.iterData).1,
         (gsLoop P Y g.net.buses.length g.net (gPspec g.net) (gQspec g.net)
            alpha tol maxIter 0 (gsInitV P g.net.buses) g.iterData).2.1,
         (gsLoop P Y g.net.buses.length g.net (gPspec g.net) (gQspec g.net)
            alpha tol maxIter 0 (gsInitV P g.net.buses) g.iterData).2.2,
         ⟨g.net,
          (gsLoop P Y g.net.buses.length g.net (gPspec g.net) (gQspec g.net)
            alpha tol maxIter 0 (gsInitV P g.net.buses) g.iterData).2.1,
          some (snapshot g.net.buses.length
            (gsLoop P Y g.net.buses.length g.net (gPspec g.net) (gQspec g.net)
              alpha tol maxIter 0 (gsInitV P g.net.buses) g.iterData).1)⟩⟩

theorem gsSolve_error_eq (P : Params) (g : GSInst) (tol : ℚ) (maxIter : ℕ)
    (alpha : ℚ) (e : String) (hb : gsBuildYbus g.net.lines = .error e) :
    gsSolve P g tol maxIter alpha =
      .error ("RuntimeError: An error occurred during Gauss-Seidel load flow calculation: " ++ e) := by
  unfold gsSolve; rw [hb]

theorem gsSolve_ok_eq (P : Params) (g : GSInst) (tol : ℚ) (maxIter : ℕ)
    (alpha : ℚ) (Y : YMat) (hb : gsBuildYbus g.net.lines = .ok Y) :
    gsSolve P g tol maxIter alpha =
      .ok ⟨(gsLoop P Y g.net.buses.length g.net (gPspec g.net) (gQspec g.net)
              alpha tol maxIter 0 (gsInitV P g.net.buses) g.iterData).1,
           (gsLoop P Y g.net.buses.length g.net (gPspec g.net) (gQspec g.net)
              alpha tol maxIter 0 (gsInitV P g.net.buses) g.iterData).2.1,
           (gsLoop P Y g.net.buses.length g.net (gPspec g.net) (gQspec g.net)
              alpha tol maxIter 0 (gsInitV P g.net.buses) g.iterData).2.2,
           ⟨g.net,
            (gsLoop P Y g.net.buses.length g.net (gPspec g.net) (gQspec g.net)
              alpha tol maxIter 0 (gsInitV P g.net.buses) g.iterData).2.1,
            some (snapshot g.net.buses.length
              (gsLoop P Y g.net.buses.length g.net (gPspec g.net) (gQspec g.net)
                alpha tol maxIter 0 (gsInitV P g.net.buses) g.iterData).1)⟩⟩ := by
  unfold gsSolve; rw [hb]

/-! ### Gauss-Seidel loop lemmas -/

theorem gsLoop_trace_append (P : Params) (Y : ℕ → ℕ → Cx) (nb : ℕ) (net : Net)
    (Pspec Qspec : ℕ → ℚ) (alpha tol : ℚ) :
    ∀ (fuel it : ℕ) (V : ℕ → Cx) (acc : List GSRec),
    ∃ tr : List GSRec,
      (gsLoop P Y nb net Pspec Qspec alpha tol fuel it V acc).2.1 = acc ++ tr := by
  intro fuel
  induction fuel with
  | zero => intro it V acc; exact ⟨[], by simp [gsLoop]⟩
  | succ n ih =>
    intro it V acc
    unfold gsLoop
    by_cases hc : (gsSweep P Y nb net Pspec Qspec alpha V).2.1 < tol
    · refine ⟨[gsRecOf nb it (gsSweep P Y nb net Pspec Qspec alpha V)], ?_⟩
      simp only [if_pos hc]
    · simp only [if_neg hc]
      obtain ⟨tr, htr⟩ := ih (it + 1) (gsSweep P Y nb net Pspec Qspec alpha V).1
        (acc ++ [gsRecOf nb it (gsSweep P Y nb net Pspec Qspec alpha V)])
      exact ⟨_, by rw [htr, List.append_assoc]⟩

theorem gsLoop_not_converged_len (P : Params) (Y : ℕ → ℕ → Cx) (nb : ℕ) (net : Net)
    (Pspec Qspec : ℕ → ℚ) (alpha tol : ℚ) :
    ∀ (fuel it : ℕ) (V : ℕ → Cx) (acc : List GSRec),
    (gsLoop P Y nb net Pspec Qspec alpha tol fuel it V acc).2.2 = false →
    (gsLoop P Y nb net Pspec Qspec alpha tol fuel it V acc).2.1.length =
      acc.length + fuel := by
  intro fuel
  induction fuel with
  | zero => intro it V acc _; simp [gsLoop]
  | succ n ih =>
    intro it V acc hnc
    unfold gsLoop at hnc ⊢
    by_cases hc : (gsSweep P Y nb net Pspec Qspec alpha V).2.1 < tol
    · rw [if_pos hc] at hnc; cases hnc
    · rw [if_neg hc] at hnc ⊢
      rw [ih _ _ _ hnc]
      simp only [List.length_append, List.length_singleton]
      omega

theorem gsSolve_ok_shape (P : Params) (g : GSInst) (tol : ℚ) (maxIter : ℕ)
    (alpha : ℚ) (out : GSOut) (h : gsSolve P g tol maxIter alpha = .ok out) :
    out.inst.iterData = out.trace ∧ ∃ tr : List GSRec, out.trace = g.iterData ++ tr := by
  cases hb : gsBuildYbus g.net.lines with
  | error e =>
    rw [gsSolve_error_eq P g tol maxIter alpha e hb] at h
    cases h
  | ok Y =>
    rw [gsSolve_ok_eq P g tol maxIter alpha Y hb] at h
    injection h with h
    rw [← h]
    refine ⟨rfl, ?_⟩
    exact gsLoop_trace_append P Y g.net.buses.length g.net (gPspec g.net)
      (gQspec g.net) alpha tol maxIter 0 (gsInitV P g.net.buses) g.iterData

/-- The returned iteration trace of an ok `gsSolve` run. -/
def trOf (r : Except String GSOut) : List GSRec :=
  match r with
  | .ok o => o.trace
  | .error _ => []

/-- The post-call instance of an ok `gsSolve` run (the pre-call instance if
the run raised). -/
def instOf (g : GSInst) (r : Except String GSOut) : GSInst :=
  match r with
  | .ok o => o.inst
  | .error _ => g

/-- C10 — `GaussSeidel.solve` appends to, and never clears, the instance
field `iter_data` (initialised once in `__init__`), so a second `solve` call
on the same instance returns a trace that starts with all records of the
first call's returned trace. -/
theorem C10_iter_data_accumulates (P : Params) (g : GSInst)
    (tol alpha tol2 alpha2 : ℚ) (maxIter maxIter2 : ℕ)
    (h1 : isErr (gsSolve P g tol maxIter alpha) = false)
    (h2 : isErr (gsSolve P (instOf g (gsSolve P g tol maxIter alpha))
                  tol2 maxIter2 alpha2) = false) :
    (trOf (gsSolve P (instOf g (gsSolve P g tol maxIter alpha)) tol2 maxIter2 alpha2)).take
        (trOf (gsSolve P g tol maxIter alpha)).length
      = trOf (gsSolve P g tol maxIter alpha) := by
  rcases hr1 : gsSolve P g tol maxIter alpha with e1 | out1
  · rw [hr1] at h1; cases h1
  · rw [hr1] at h2
    simp only [instOf] at h2 ⊢
    rcases hr2 : gsSolve P out1.inst tol2 maxIter2 alpha2 with e2 | out2
    · rw [hr2] at h2; simp [isErr] at h2
    · obtain ⟨hinst2, tr2, htr2⟩ := gsSolve_ok_shape P out1.inst tol2 maxIter2 alpha2 out2 hr2
      obtain ⟨hinst1, tr1, htr1⟩ := gsSolve_ok_shape P g tol maxIter alpha out1 hr1
      simp only [trOf]
      rw [htr2, hinst1]
      exact List.take_left _ _

/-- Witness for C10: a one-bus network with no lines, solved twice. -/
theorem C10_iter_data_accumulates_witness :
    isErr (gsSolve ⟨fun _ => 0, fun _ => 0, fun _ => 0, fun _ => 0, fun _ => 0,
        fun _ => 0, fun _ => 1, fun _ _ _ => none⟩
        ⟨⟨[⟨1, 1, 0, 0, 0, 0, 0⟩], none, [], 1⟩, [], none⟩ 1 1 1) = false ∧
    (trOf (gsSolve ⟨fun _ => 0, fun _ => 0, fun _ => 0, fun _ => 0, fun _ => 0,
        fun _ => 0, fun _ => 1, fun _ _ _ => none⟩
        (instOf ⟨⟨[⟨1, 1, 0, 0, 0, 0, 0⟩], none, [], 1⟩, [], none⟩
          (gsSolve ⟨fun _ => 0, fun _ => 0, fun _ => 0, fun _ => 0, fun _ => 0,
            fun _ => 0, fun _ => 1, fun _ _ _ => none⟩
            ⟨⟨[⟨1, 1, 0, 0, 0, 0, 0⟩], none, [], 1⟩, [], none⟩ 1 1 1)) 1 1 1)).take
      (trOf (gsSolve ⟨fun _ => 0, fun _ => 0, fun _ => 0, fun _ => 0, fun _ => 0,
        fun _ => 0, fun _ => 1, fun _ _ _ => none⟩
        ⟨⟨[⟨1, 1, 0, 0, 0, 0, 0⟩], none, [], 1⟩, [], none⟩ 1 1 1)).length
      = trOf (gsSolve ⟨fun _ => 0, fun _ => 0, fun _ => 0, fun _ => 0, fun _ => 0,
        fun _ => 0, fun _ => 1, fun _ _ _ => none⟩
        ⟨⟨[⟨1, 1, 0, 0, 0, 0, 0⟩], none, [], 1⟩, [], none⟩ 1 1 1) := by
  refine ⟨rfl, ?_⟩
  exact C10_iter_data_accumulates _ _ 1 1 1 1 1 1 rfl rfl

/-! ### C8: the PV-bus update of a Gauss-Seidel sweep -/

theorem Cx.smul_assoc' (p q : ℚ) (z : Cx) : p • (q • z) = (p * q) • z :=
  Cx.ext' (by simp only [Cx.smul_re]; ring) (by simp only [Cx.smul_im]; ring)

theorem gsPVUpdate_Vpre_eq (P : Params) (Y : ℕ → ℕ → Cx) (nb : ℕ) (Vset : ℚ)
    (qlim : Option (ℚ × ℚ)) (PspecI alpha : ℚ) (V : ℕ → Cx) (i : ℕ) :
    (gsPVUpdate P Y nb Vset qlim PspecI alpha V i).Vpre =
      if eps12 < P.cabs (gsPVUpdate P Y nb Vset qlim PspecI alpha V i).Vnew then
        (Vset / P.cabs (gsPVUpdate P Y nb Vset qlim PspecI alpha V i).Vnew) •
          (gsPVUpdate P Y nb Vset qlim PspecI alpha V i).Vnew
      else (gsPVUpdate P Y nb Vset qlim PspecI alpha V i).Vnew := rfl

/-- C8 amended — In every Gauss-Seidel sweep the PV-bus update estimates the
reactive injection from the current voltages, clamps it into `[Qmin, Qmax]`,
solves for a new complex voltage, renormalises it toward the magnitude
set-point *only when* `abs(V_new) > 1e-12` (the renormalised value satisfies
`|V_new|·V_pre = Vset·V_new`, i.e. it is `V_new` rescaled to magnitude
`Vset`), and finally blends with the acceleration factor.  When
`abs(V_new) ≤ 1e-12` the unnormalised `V_new` is blended instead. -/
theorem C8_amended_pv_update (P : Params) (Y : ℕ → ℕ → Cx) (nb : ℕ)
    (Vset lo hi PspecI alpha : ℚ) (V : ℕ → Cx) (i : ℕ) (hlim : lo ≤ hi) :
    (gsPVUpdate P Y nb Vset (some (lo, hi)) PspecI alpha V i).Qest
        = (V i * Cx.conj (dotYV Y nb V i)).im ∧
    (gsPVUpdate P Y nb Vset (some (lo, hi)) PspecI alpha V i).Qused
        = min (max (gsPVUpdate P Y nb Vset (some (lo, hi)) PspecI alpha V i).Qest lo) hi ∧
    lo ≤ (gsPVUpdate P Y nb Vset (some (lo, hi)) PspecI alpha V i).Qused ∧
    (gsPVUpdate P Y nb Vset (some (lo, hi)) PspecI alpha V i).Qused ≤ hi ∧
    (eps12 < P.cabs (gsPVUpdate P Y nb Vset (some (lo, hi)) PspecI alpha V i).Vnew →
      P.cabs (gsPVUpdate P Y nb Vset (some (lo, hi)) PspecI alpha V i).Vnew •
          (gsPVUpdate P Y nb Vset (some (lo, hi)) PspecI alpha V i).Vpre
        = Vset • (gsPVUpdate P Y nb Vset (some (lo, hi)) PspecI alpha V i).Vnew) ∧
    (gsPVUpdate P Y nb Vset (some (lo, hi)) PspecI alpha V i).result
        = alpha • (gsPVUpdate P Y nb Vset (some (lo, hi)) PspecI alpha V i).Vpre
          + (1 - alpha) • (gsPVUpdate P Y nb Vset (some (lo, hi)) PspecI alpha V i).Vi := by
  refine ⟨rfl, rfl, ?_, ?_, ?_, rfl⟩
  · exact le_min (le_max_right _ _) hlim
  · exact min_le_right _ _
  · intro h
    have hpos : (0 : ℚ) < P.cabs (gsPVUpdate P Y nb Vset (some (lo, hi)) PspecI alpha V i).Vnew :=
      lt_trans (by norm_num [eps12]) h
    rw [gsPVUpdate_Vpre_eq, if_pos h, Cx.smul_assoc',
      mul_comm, div_mul_cancel₀ _ (ne_of_gt hpos)]

/-- Witness for C8's amended statement at a degenerate concrete instance. -/
theorem C8_amended_pv_update_witness :
    (0 : ℚ) ≤ 0 ∧
    ((gsPVUpdate ⟨fun _ => 0, fun _ => 0, fun _ => 0, fun _ => 0, fun _ => 0,
        fun _ => 0, fun _ => 1, fun _ _ _ => none⟩ (fun _ _ => 0) 0 1 (some (0, 0)) 0 1
        (fun _ => 0) 0).Qest
        = ((fun _ => (0 : Cx)) 0 * Cx.conj (dotYV (fun _ _ => 0) 0 (fun _ => 0) 0)).im ∧
     (gsPVUpdate ⟨fun _ => 0, fun _ => 0, fun _ => 0, fun _ => 0, fun _ => 0,
        fun _ => 0, fun _ => 1, fun _ _ _ => none⟩ (fun _ _ => 0) 0 1 (some (0, 0)) 0 1
        (fun _ => 0) 0).Qused
        = min (max (gsPVUpdate ⟨fun _ => 0, fun _ => 0, fun _ => 0, fun _ => 0, fun _ => 0,
            fun _ => 0, fun _ => 1, fun _ _ _ => none⟩ (fun _ _ => 0) 0 1 (some (0, 0)) 0 1
            (fun _ => 0) 0).Qest 0) 0 ∧
     (0 : ℚ) ≤ (gsPVUpdate ⟨fun _ => 0, fun _ => 0, fun _ => 0, fun _ => 0, fun _ => 0,
        fun _ => 0, fun _ => 1, fun _ _ _ => none⟩ (fun _ _ => 0) 0 1 (some (0, 0)) 0 1
        (fun _ => 0) 0).Qused ∧
     (gsPVUpdate ⟨fun _ => 0, fun _ => 0, fun _ => 0, fun _ => 0, fun _ => 0,
        fun _ => 0, fun _ => 1, fun _ _ _ => none⟩ (fun _ _ => 0) 0 1 (some (0, 0)) 0 1
        (fun _ => 0) 0).Qused ≤ 0 ∧
     (eps12 < Params.cabs ⟨fun _ => 0, fun _ => 0, fun _ => 0, fun _ => 0, fun _ => 0,
          fun _ => 0, fun _ => 1, fun _ _ _ => none⟩
          (gsPVUpdate ⟨fun _ => 0, fun _ => 0, fun _ => 0, fun _ => 0, fun _ => 0,
            fun _ => 0, fun _ => 1, fun _ _ _ => none⟩ (fun _ _ => 0) 0 1 (some (0, 0)) 0 1
            (fun _ => 0) 0).Vnew →
       Params.cabs ⟨fun _ => 0, fun _ => 0, fun _ => 0, fun _ => 0, fun _ => 0,
          fun _ => 0, fun _ => 1, fun _ _ _ => none⟩
          (gsPVUpdate ⟨fun _ => 0, fun _ => 0, fun _ => 0, fun _ => 0, fun _ => 0,
            fun _ => 0, fun _ => 1, fun _ _ _ => none⟩ (fun _ _ => 0) 0 1 (some (0, 0)) 0 1
            (fun _ => 0) 0).Vnew •
          (gsPVUpdate ⟨fun _ => 0, fun _ => 0, fun _ => 0, fun _ => 0, fun _ => 0,
            fun _ => 0, fun _ => 1, fun _ _ _ => none⟩ (fun _ _ => 0) 0 1 (some (0, 0)) 0 1
            (fun _ => 0) 0).Vpre
        = (1 : ℚ) • (gsPVUpdate ⟨fun _ => 0, fun _ => 0, fun _ => 0, fun _ => 0, fun _ => 0,
            fun _ => 0, fun _ => 1, fun _ _ _ => none⟩ (fun _ _ => 0) 0 1 (some (0, 0)) 0 1
            (fun _ => 0) 0).Vnew) ∧
     (gsPVUpdate ⟨fun _ => 0, fun _ => 0, fun _ => 0, fun _ => 0, fun _ => 0,
        fun _ => 0, fun _ => 1, fun _ _ _ => none⟩ (fun _ _ => 0) 0 1 (some (0, 0)) 0 1
        (fun _ => 0) 0).result
        = (1 : ℚ) • (gsPVUpdate ⟨fun _ => 0, fun _ => 0, fun _ => 0, fun _ => 0, fun _ => 0,
            fun _ => 0, fun _ => 1, fun _ _ _ => none⟩ (fun _ _ => 0) 0 1 (some (0, 0)) 0 1
            (fun _ => 0) 0).Vpre
          + ((1 : ℚ) - 1) • (gsPVUpdate ⟨fun _ => 0, fun _ => 0, fun _ => 0, fun _ => 0,
            fun _ => 0, fun _ => 0, fun _ => 1, fun _ _ _ => none⟩ (fun _ _ => 0) 0 1
            (some (0, 0)) 0 1 (fun _ => 0) 0).Vi) :=
  ⟨le_refl 0, C8_amended_pv_update _ _ 0 1 0 0 0 1 (fun _ => 0) 0 (le_refl 0)⟩

/-- Concrete network for the C8 counterexample: slack bus 1 at `1∠0°`, PV
bus 2 with set-point 1, `P_load = 1`, `Qmin = Qmax = 0`, joined by the line
`r = 19/20, x = 1/20, b = 0`.  These values make the PV update's solved
voltage `V_new` exactly zero on the first sweep. -/
def gsCexBuses : List Bus := [⟨1, 1, 0, 0, 0, 0, 0⟩, ⟨2, 1, 0, 0, 0, 1, 0⟩]

def gsCexLines : List Line := [⟨1, 2, 19/20, 1/20, 0⟩]

def gsCexNet : Net := ⟨gsCexBuses, some [(0, 0), (0, 0)], gsCexLines, 1⟩

/-- Parameter instantiation for the counterexample.  Its magnitude oracle
`cabs` returns 0 at 0 and 1 elsewhere: it agrees with the true complex
magnitude on the outcome of every threshold comparison the counterexample
run performs (`|0.95-0.05j| ≈ 0.951` vs `1e-12`, and `|0|` vs `1e-12`). -/
def gsCexP : Params :=
  ⟨fun z => if z = 0 then 0 else 1, fun _ => 0, fun _ => 0, fun _ => 0,
   fun _ => 0, fun _ => 0, fun _ => ⟨1, 0⟩, fun _ _ _ => none⟩

/-- The admittance matrix `GaussSeidel.build_ybus` produces on the
counterexample line list. -/
def gsCexY : ℕ → ℕ → Cx :=
  match gsBuildYbus gsCexLines with
  | .ok M => M
  | .error _ => fun _ _ => 0

/-- The specified active powers exactly as `GaussSeidel.solve` derives them. -/
def gsCexPspec : ℕ → ℚ := fun i =>
  match gsCexNet.buses.get? i with
  | some b => b.PG / gsCexNet.Sbase - b.PL / gsCexNet.Sbase
  | none => 0

def gsCexQspec : ℕ → ℚ := fun i =>
  match gsCexNet.buses.get? i with
  | some b => b.QG / gsCexNet.Sbase - b.QL / gsCexNet.Sbase
  | none => 0

theorem gsCexBuild : gsBuildYbus gsCexLines =
    .ok (lineUpd (fun _ _ => 0) 0 1 (Cx.cinv ⟨19/20, 1/20⟩) ⟨0, 0/2⟩) := by
  have hnz : ¬((⟨19/20, 1/20⟩ : Cx) = 0) := by
    intro h
    have := congrArg Cx.re h
    norm_num at this
  unfold gsBuildYbus gsCexLines
  simp only [List.foldl_cons, List.foldl_nil, gsBuildStep]
  rw [if_neg hnz]

theorem gsCexY_def : gsCexY = lineUpd (fun _ _ => 0) 0 1 (Cx.cinv ⟨19/20, 1/20⟩) ⟨0, 0/2⟩ := by
  unfold gsCexY
  rw [gsCexBuild]

theorem gsCexY11 : gsCexY 1 1 = ⟨190/181, -(10/181)⟩ := by
  rw [gsCexY_def]
  unfold lineUpd
  rw [Cx.ext_iff']
  norm_num [Cx.cinv, Cx.conj, Cx.normSq]

theorem gsCexY10 : gsCexY 1 0 = ⟨-(190/181), 10/181⟩ := by
  rw [gsCexY_def]
  unfold lineUpd
  rw [Cx.ext_iff']
  norm_num [Cx.cinv, Cx.conj, Cx.normSq]

theorem gsCexV0_0 : gsInitV gsCexP gsCexNet.buses 0 = ⟨1, 0⟩ := by
  show gsInitV gsCexP gsCexBuses 0 = ⟨1, 0⟩
  unfold gsInitV gsCexBuses
  rw [Cx.ext_iff']
  norm_num [gsCexP]

theorem gsCexV0_1 : gsInitV gsCexP gsCexNet.buses 1 = ⟨19/20, -(1/20)⟩ := by
  show gsInitV gsCexP gsCexBuses 1 = ⟨19/20, -(1/20)⟩
  unfold gsInitV gsCexBuses
  rw [Cx.ext_iff']
  norm_num

theorem gsCexSum : sumYV gsCexY 2 (gsInitV gsCexP gsCexNet.buses) 1 = ⟨-(190/181), 10/181⟩ := by
  unfold sumYV csum
  simp only [show List.range 2 = [0, 1] from rfl]
  norm_num [gsCexY10, gsCexV0_0, Cx.ext_iff']

theorem gsCexDot : dotYV gsCexY 2 (gsInitV gsCexP gsCexNet.buses) 1 = ⟨-(10/181), -(9/181)⟩ := by
  unfold dotYV csum
  simp only [show List.range 2 = [0, 1] from rfl]
  norm_num [gsCexY10, gsCexY11, gsCexV0_0, gsCexV0_1, Cx.ext_iff']

theorem gsCexVnew : (gsPVUpdate gsCexP gsCexY 2 1 (qlimAt gsCexNet 1) (gsCexPspec 1) 1
    (gsInitV gsCexP gsCexNet.buses) 1).Vnew = 0 := by
  show Cx.cinv (gsCexY 1 1) *
      (Cx.cdiv (Cx.conj ⟨gsCexPspec 1,
        clipQ ((gsInitV gsCexP gsCexNet.buses 1) *
          Cx.conj (dotYV gsCexY 2 (gsInitV gsCexP gsCexNet.buses) 1)).im (qlimAt gsCexNet 1)⟩)
        (Cx.conj (if gsCexP.cabs (gsInitV gsCexP gsCexNet.buses 1) < eps12
          then (⟨1, 0⟩ : Cx) else gsInitV gsCexP gsCexNet.buses 1)) -
       sumYV gsCexY 2 (gsInitV gsCexP gsCexNet.buses) 1) = 0
  rw [gsCexDot, gsCexSum, gsCexY11, gsCexV0_1]
  have hguard : ¬(gsCexP.cabs (⟨19/20, -(1/20)⟩ : Cx) < eps12) := by
    have : gsCexP.cabs (⟨19/20, -(1/20)⟩ : Cx) = 1 := by
      show (if (⟨19/20, -(1/20)⟩ : Cx) = 0 then (0 : ℚ) else 1) = 1
      rw [if_neg]
      intro h
      have := congrArg Cx.re h
      norm_num at this
    rw [this, eps12]
    norm_num
  rw [if_neg hguard]
  have hq : clipQ ((⟨19/20, -(1/20)⟩ : Cx) * Cx.conj (⟨-(10/181), -(9/181)⟩ : Cx)).im
      (qlimAt gsCexNet 1) = 0 := by
    norm_num [clipQ, qlimAt, gsCexNet, Cx.conj]
  rw [hq]
  have hp : gsCexPspec 1 = -1 := by norm_num [gsCexPspec, gsCexNet, gsCexBuses]
  rw [hp]
  rw [Cx.ext_iff']
  norm_num [Cx.cinv, Cx.cdiv, Cx.conj, Cx.normSq]

/-- C8 counterexample — with the network `gsCexNet`, acceleration factor 1
and the solver's own initial voltages, the first sweep's PV update at bus 2
produces `V_new = 0` exactly; the renormalisation guard `abs(V_new) > 1e-12`
then fails, so the voltage is *not* renormalised to the magnitude set-point
(which is 1): the blended result, and the bus voltage after the sweep, are
the zero complex number, of magnitude 0 ≠ 1.  This refutes the claim that
the PV update always renormalises the solved voltage back to the set-point
before blending. -/
theorem C8_counterexample_renorm_skipped :
    (gsPVUpdate gsCexP gsCexY 2 1 (qlimAt gsCexNet 1) (gsCexPspec 1) 1
        (gsInitV gsCexP gsCexNet.buses) 1).Vpre = 0 ∧
    (gsPVUpdate gsCexP gsCexY 2 1 (qlimAt gsCexNet 1) (gsCexPspec 1) 1
        (gsInitV gsCexP gsCexNet.buses) 1).result = 0 ∧
    (gsSweep gsCexP gsCexY 2 gsCexNet gsCexPspec gsCexQspec 1
        (gsInitV gsCexP gsCexNet.buses)).1 1 = 0 := by
  have hVnew := gsCexVnew
  have hVpre : (gsPVUpdate gsCexP gsCexY 2 1 (qlimAt gsCexNet 1) (gsCexPspec 1) 1
      (gsInitV gsCexP gsCexNet.buses) 1).Vpre = 0 := by
    rw [gsPVUpdate_Vpre_eq, hVnew]
    have h0 : gsCexP.cabs 0 = 0 := rfl
    rw [h0, if_neg (by norm_num [eps12])]
  have hres : (gsPVUpdate gsCexP gsCexY 2 1 (qlimAt gsCexNet 1) (gsCexPspec 1) 1
      (gsInitV gsCexP gsCexNet.buses) 1).result = 0 := by
    have hblend : (gsPVUpdate gsCexP gsCexY 2 1 (qlimAt gsCexNet 1) (gsCexPspec 1) 1
        (gsInitV gsCexP gsCexNet.buses) 1).result =
        (1 : ℚ) • (gsPVUpdate gsCexP gsCexY 2 1 (qlimAt gsCexNet 1) (gsCexPspec 1) 1
          (gsInitV gsCexP gsCexNet.buses) 1).Vpre +
        ((1 : ℚ) - 1) • (gsPVUpdate gsCexP gsCexY 2 1 (qlimAt gsCexNet 1) (gsCexPspec 1) 1
          (gsInitV gsCexP gsCexNet.buses) 1).Vi := rfl
    rw [hblend, hVpre]
    rw [Cx.ext_iff']
    norm_num
  refine ⟨hVpre, hres, ?_⟩
  show ((List.range 2).foldl (gsBusStep gsCexP gsCexY 2 gsCexNet gsCexPspec gsCexQspec 1
      (gsInitV gsCexP gsCexNet.buses)) (gsInitV gsCexP gsCexNet.buses, 0, 0)).1 1 = 0
  simp only [show List.range 2 = [0, 1] from rfl, List.foldl_cons, List.foldl_nil]
  have hstep0 : gsBusStep gsCexP gsCexY 2 gsCexNet gsCexPspec gsCexQspec 1
      (gsInitV gsCexP gsCexNet.buses) (gsInitV gsCexP gsCexNet.buses, 0, 0) 0 =
      (gsInitV gsCexP gsCexNet.buses, 0, 0) := by
    show (match (gsCexNet.buses.get? 0 : Option Bus) with
      | none => (gsInitV gsCexP gsCexNet.buses, (0 : ℚ), (0 : ℚ))
      | some b => _) = _
    rfl
  rw [hstep0]
  have hget1 : (gsCexNet.buses.get? 1 : Option Bus) = some ⟨2, 1, 0, 0, 0, 1, 0⟩ := rfl
  show (gsBusStep gsCexP gsCexY 2 gsCexNet gsCexPspec gsCexQspec 1
      (gsInitV gsCexP gsCexNet.buses) (gsInitV gsCexP gsCexNet.buses, 0, 0) 1).1 1 = 0
  unfold gsBusStep
  rw [hget1]
  norm_num
  exact hres

/-! ### Gauss-Seidel slack-invariance lemmas -/

theorem gsBusStep_slack (P : Params) (Y : ℕ → ℕ → Cx) (nb : ℕ) (net : Net)
    (Pspec Qspec : ℕ → ℚ) (alpha : ℚ) (Vprev : ℕ → Cx)
    (st : (ℕ → Cx) × ℚ × ℚ) (i j : ℕ) (hj : typAt net.buses j = some 1) :
    (gsBusStep P Y nb net Pspec Qspec alpha Vprev st i).1 j = st.1 j := by
  unfold gsBusStep
  cases hget : (net.buses.get? i : Option Bus) with
  | none => rfl
  | some b =>
    simp only [hget]
    by_cases h1 : b.typ = 1
    · rw [if_pos h1]
    · rw [if_neg h1]
      have hij : j ≠ i := by
        intro he
        subst he
        unfold typAt at hj
        rw [hget] at hj
        simp only [Option.map_some'] at hj
        exact h1 (Option.some.inj hj)
      simp only
      split_ifs with h3 h2
      · exact updV_other _ _ _ _ hij
      · exact updV_other _ _ _ _ hij
      · rfl

theorem gsSweep_slack (P : Params) (Y : ℕ → ℕ → Cx) (nb : ℕ) (net : Net)
    (Pspec Qspec : ℕ → ℚ) (alpha : ℚ) (V : ℕ → Cx) (j : ℕ)
    (hj : typAt net.buses j = some 1) :
    (gsSweep P Y nb net Pspec Qspec alpha V).1 j = V j := by
  unfold gsSweep
  have hgen : ∀ (l : List ℕ) (st : (ℕ → Cx) × ℚ × ℚ), st.1 j = V j →
      (l.foldl (gsBusStep P Y nb net Pspec Qspec alpha V) st).1 j = V j := by
    intro l
    induction l with
    | nil => intro st h; exact h
    | cons a t ih =>
      intro st h
      simp only [List.foldl_cons]
      exact ih _ ((gsBusStep_slack P Y nb net Pspec Qspec alpha V st a j hj).trans h)
  exact hgen (List.range nb) (V, 0, 0) rfl

theorem gsLoop_slack (P : Params) (Y : ℕ → ℕ → Cx) (net : Net)
    (Pspec Qspec : ℕ → ℚ) (alpha tol : ℚ) (j : ℕ)
    (hj : typAt net.buses j = some 1) :
    ∀ (fuel it : ℕ) (V : ℕ → Cx) (acc : List GSRec),
    (gsLoop P Y net.buses.length net Pspec Qspec alpha tol fuel it V acc).1 j = V j := by
  intro fuel
  induction fuel with
  | zero => intro it V acc; rfl
  | succ n ih =>
    intro it V acc
    unfold gsLoop
    by_cases hc : (gsSweep P Y net.buses.length net Pspec Qspec alpha V).2.1 < tol
    · rw [if_pos hc]
      exact gsSweep_slack P Y net.buses.length net Pspec Qspec alpha V j hj
    · rw [if_neg hc]
      exact (ih (it + 1) _ _).trans
        (gsSweep_slack P Y net.buses.length net Pspec Qspec alpha V j hj)

theorem gsInitV_nonslack (P : Params) (buses : List Bus) (i : ℕ) (b : Bus)
    (hget : buses.get? i = some b) (h1 : b.typ ≠ 1) :
    gsInitV P buses i = ⟨95/100, -(5/100)⟩ := by
  unfold gsInitV
  rw [hget]
  simp only [if_neg h1]

/-! ### Newton-Raphson solver (`newton_raphson.py`) -/

/-- Initial voltage vector of `NRLoadFlow.extract_bus_params` (lines 59-66):
slack buses get their set-point `|V|·exp(j·radians(θ))`, PV buses start at
`(|V|_set, 0)`, PQ buses at the fixed constant `0.95 - 0.05j` regardless of
their table voltage columns. -/
def nrInitV (P : Params) (buses : List Bus) : ℕ → Cx := fun i =>
  match buses.get? i with
  | none => 1
  | some b =>
    if b.typ = 1 then b.Vset • P.cis (P.radians b.thetaSet)
    else if b.typ = 2 then ⟨b.Vset, 0⟩
    else ⟨95/100, -(5/100)⟩

/-- Specified active power `PG - PL` (lines 68-73; `NRLoadFlow` applies no
base-power normalisation). -/
def nrPspec (buses : List Bus) : ℕ → ℚ := fun i =>
  match buses.get? i with
  | some b => b.PG - b.PL
  | none => 0

def nrQspec (buses : List Bus) : ℕ → ℚ := fun i =>
  match buses.get? i with
  | some b => b.QG - b.QL
  | none => 0

/-- Embeds `power_calculation_vectorized` (lines 77-110): the polar power-flow sums
`P_i = Σ_k |V_i||V_k||Y_ik| cos(θ_Yik + δ_k - δ_i)` and
`Q_i = -Σ_k ... sin(...)` (the source's vectorisation is a storage detail). -/
def nrPQcalc (P : Params) (Y : ℕ → ℕ → Cx) (n : ℕ) (V : ℕ → Cx) (i : ℕ) : ℚ × ℚ :=
  (((List.range n).map (fun k =>
      P.cabs (V i) * P.cabs (V k) * P.cabs (Y i k) *
        P.cos (P.carg (Y i k) + P.carg (V k) - P.carg (V i)))).sum,
   -((List.range n).map (fun k =>
      P.cabs (V i) * P.cabs (V k) * P.cabs (Y i k) *
        P.sin (P.carg (Y i k) + P.carg (V k) - P.carg (V i)))).sum)

/-- Embeds `calc_power_mismatch` (lines 112-127): active-power rows for PV and PQ
buses in bus order, then reactive-power rows for PQ buses. -/
def nrMismatch (P : Params) (Y : ℕ → ℕ → Cx) (n : ℕ) (buses : List Bus)
    (Pspec Qspec : ℕ → ℚ) (V : ℕ → Cx) : List ℚ :=
  ((List.range n).filter
      (fun i => typAt buses i = some 2 ∨ typAt buses i = some 3)).map
    (fun i => Pspec i - (nrPQcalc P Y n V i).1) ++
  ((List.range n).filter (fun i => typAt buses i = some 3)).map
    (fun i => Qspec i - (nrPQcalc P Y n V i).2)

/-- Embeds `np.max(np.abs(v))` over a mismatch vector (evaluated only on nonempty
vectors in the source; the 0 start value is absorbed by `|·| ≥ 0`). -/
def maxAbs (l : List ℚ) : ℚ := (l.map (fun q => |q|)).foldl max 0

/-- Embeds `np.sqrt(np.mean(mismatch**2))`. -/
def rmsOf (P : Params) (l : List ℚ) : ℚ :=
  P.sqrt (((l.map (fun q => q * q)).sum) / (l.length : ℚ))

/-- Embeds `pq = [i for i, t in enumerate(types) if t == 3]`. -/
def pqList (buses : List Bus) (n : ℕ) : List ℕ :=
  (List.range n).filter (fun i => typAt buses i = some 3)

def pvList (buses : List Bus) (n : ℕ) : List ℕ :=
  (List.range n).filter (fun i => typAt buses i = some 2)

/-- Embeds `non_slack = pv + pq` (line 138). -/
def nonSlackList (buses : List Bus) (n : ℕ) : List ℕ :=
  pvList buses n ++ pqList buses n

/-- Threshold `1e-10` of the Jacobian's connectivity guard. -/
def eps10 : ℚ := 1 / 10 ^ 10

/-- J11 entry `∂P_i/∂δ_j` (lines 158-173); diagonal entries sum over
connected `k ≠ i` (skipped terms contribute 0). -/
def nrJ11 (P : Params) (Y : ℕ → ℕ → Cx) (n : ℕ) (V : ℕ → Cx) (i j : ℕ) : ℚ :=
  if i = j then
    ((List.range n).map (fun k =>
      if k ≠ i ∧ eps10 < P.cabs (Y i k) then
        P.cabs (V i) * P.cabs (V k) * P.cabs (Y i k) *
          P.sin (P.carg (Y i k) + P.carg (V k) - P.carg (V i))
      else 0)).sum
  else if eps10 < P.cabs (Y i j) then
    -(P.cabs (V i) * P.cabs (V j) * P.cabs (Y i j) *
      P.sin (P.carg (Y i j) + P.carg (V j) - P.carg (V i)))
  else 0

/-- J12 entry `∂P_i/∂|V_j|` (lines 175-192). -/
def nrJ12 (P : Params) (Y : ℕ → ℕ → Cx) (n : ℕ) (V : ℕ → Cx) (i j : ℕ) : ℚ :=
  if i = j then
    2 * P.cabs (V i) * P.cabs (Y i i) * P.cos (P.carg (Y i i)) +
    ((List.range n).map (fun k =>
      if k ≠ i ∧ eps10 < P.cabs (Y i k) then
        P.cabs (V k) * P.cabs (Y i k) *
          P.cos (P.carg (Y i k) + P.carg (V k) - P.carg (V i))
      else 0)).sum
  else if eps10 < P.cabs (Y i j) then
    P.cabs (V i) * P.cabs (Y i j) *
      P.cos (P.carg (Y i j) + P.carg (V j) - P.carg (V i))
  else 0

/-- J21 entry `∂Q_i/∂δ_j` (lines 194-209). -/
def nrJ21 (P : Params) (Y : ℕ → ℕ → Cx) (n : ℕ) (V : ℕ → Cx) (i j : ℕ) : ℚ :=
  if i = j then
    -((List.range n).map (fun k =>
      if k ≠ i ∧ eps10 < P.cabs (Y i k) then
        P.cabs (V i) * P.cabs (V k) * P.cabs (Y i k) *
          P.cos (P.carg (Y i k) + P.carg (V k) - P.carg (V i))
      else 0)).sum
  else if eps10 < P.cabs (Y i j) then
    P.cabs (V i) * P.cabs (V j) * P.cabs (Y i j) *
      P.cos (P.carg (Y i j) + P.carg (V j) - P.carg (V i))
  else 0

/-- J22 entry `∂Q_i/∂|V_j|` (lines 211-228). -/
def nrJ22 (P : Params) (Y : ℕ → ℕ → Cx) (n : ℕ) (V : ℕ → Cx) (i j : ℕ) : ℚ :=
  if i = j then
    -(2 * P.cabs (V i) * P.cabs (Y i i) * P.sin (P.carg (Y i i))) -
    ((List.range n).map (fun k =>
      if k ≠ i ∧ eps10 < P.cabs (Y i k) then
        P.cabs (V k) * P.cabs (Y i k) *
          P.sin (P.carg (Y i k) + P.carg (V k) - P.carg (V i))
      else 0)).sum
  else if eps10 < P.cabs (Y i j) then
    -(P.cabs (V i) * P.cabs (Y i j) *
      P.sin (P.carg (Y i j) + P.carg (V j) - P.carg (V i)))
  else 0

/-- Embeds `build_jacobian_optimized` (lines 129-230): the four blocks assembled
over angle unknowns (PV∪PQ, in that order) followed by magnitude unknowns
(PQ); entries outside the `(nns+npq)²` square are 0. -/
def nrJacobian (P : Params) (Y : ℕ → ℕ → Cx) (n : ℕ) (buses : List Bus)
    (V : ℕ → Cx) : ℕ → ℕ → ℚ := fun a b =>
  if a < (nonSlackList buses n).length then
    if b < (nonSlackList buses n).length then
      nrJ11 P Y n V ((nonSlackList buses n).getD a 0) ((nonSlackList buses n).getD b 0)
    else if b < (nonSlackList buses n).length + (pqList buses n).length then
      nrJ12 P Y n V ((nonSlackList buses n).getD a 0)
        ((pqList buses n).getD (b - (nonSlackList buses n).length) 0)
    else 0
  else if a < (nonSlackList buses n).length + (pqList buses n).length then
    if b < (nonSlackList buses n).length then
      nrJ21 P Y n V ((pqList buses n).getD (a - (nonSlackList buses n).length) 0)
        ((nonSlackList buses n).getD b 0)
    else if b < (nonSlackList buses n).length + (pqList buses n).length then
      nrJ22 P Y n V ((pqList buses n).getD (a - (nonSlackList buses n).length) 0)
        ((pqList buses n).getD (b - (nonSlackList buses n).length) 0)
    else 0
  else 0

/-- The sequential angle update over the non-slack buses
(lines 303-308): `V[i] = |V[i]| · exp(j(angle(V[i]) + step·dX[idx]))`. -/
def nrUpdAngles (P : Params) (dX : List ℚ) (step : ℚ) :
    List ℕ → ℕ → (ℕ → Cx) → ℕ → Cx
  | [], _, V => V
  | i :: rest, idx, V =>
    nrUpdAngles P dX step rest (idx + 1)
      (updV V i (P.cabs (V i) • P.cis (P.carg (V i) + step * dX.getD idx 0)))

/-- The sequential magnitude update over the PQ buses (lines 310-319), with
the new magnitude clamped to `[0.5, 1.5]` by `np.clip`. -/
def nrUpdMags (P : Params) (dX : List ℚ) (step : ℚ) :
    List ℕ → ℕ → (ℕ → Cx) → ℕ → Cx
  | [], _, V => V
  | i :: rest, idx, V =>
    nrUpdMags P dX step rest (idx + 1)
      (updV V i
        (min (max (P.cabs (V i) + step * dX.getD idx 0) (1/2)) (3/2) •
          P.cis (P.carg (V i))))

/-- The full voltage update of one Newton-Raphson iteration: angles for all
non-slack buses, then magnitudes for PQ buses, whose `dX` entries start at
offset `len(non_slack)`; the adaptive step size is 0.8 for the first three
iterations and 1.0 afterward (lines 297-301). -/
def nrUpdateV (P : Params) (n : ℕ) (buses : List Bus) (it : ℕ) (dX : List ℚ)
    (V : ℕ → Cx) : ℕ → Cx :=
  nrUpdMags P dX (if it < 3 then 8/10 else 1) (pqList buses n)
    (nonSlackList buses n).length
    (nrUpdAngles P dX (if it < 3 then 8/10 else 1) (nonSlackList buses n) 0 V)

/-- One iteration record (lines 252-270); voltage snapshots are stored raw
(the source formats them, or condenses them to min/max/avg statistics for
large systems — presentational variants of the same data). -/
structure NRRec where
  iteration : ℕ
  volts : List Cx
  maxMis : ℚ
  rmsMis : ℚ
deriving DecidableEq, Repr

/-- Outcome of `NRLoadFlow.solve`: final voltages, the iteration trace, the
internal `converged` flag, and whether the run aborted on a singular
Jacobian (`np.linalg.LinAlgError`, lines 288-290). -/
structure NROut where
  V : ℕ → Cx
  trace : List NRRec
  converged : Bool
  singular : Bool

/-- The record a Newton-Raphson iteration appends before its convergence
test. -/
def nrRecOf (P : Params) (Y : ℕ → ℕ → Cx) (n : ℕ) (buses : List Bus)
    (Pspec Qspec : ℕ → ℚ) (it : ℕ) (V : ℕ → Cx) : NRRec :=
  ⟨it + 1, snapshot n V,
   maxAbs (nrMismatch P Y n buses Pspec Qspec V),
   rmsOf P (nrMismatch P Y n buses Pspec Qspec V)⟩

/-- Outcome of one pass through the `for it in range(max_iter)` body. -/
inductive NRStep where
  | stopEmpty : NRStep
  | stopConv : NRRec → NRStep
  | stopSingular : NRRec → NRStep
  | next : NRRec → (ℕ → Cx) → NRStep

/-- One pass through the loop body of `NRLoadFlow.solve` (lines 241-319):
an empty mismatch vector (slack-only system) converges immediately without a
record; otherwise the record is appended, the enhanced criterion
`max|mismatch| < tol AND rms < tol/10` is tested, and on failure the
Jacobian is assembled and solved (a `LinAlgError` breaks out of the loop)
and the voltages are updated with the adaptive step size. -/
def nrStep (P : Params) (Y : ℕ → ℕ → Cx) (n : ℕ) (buses : List Bus)
    (Pspec Qspec : ℕ → ℚ) (tol : ℚ) (it : ℕ) (V : ℕ → Cx) : NRStep :=
  if nrMismatch P Y n buses Pspec Qspec V = [] then .stopEmpty
  else if maxAbs (nrMismatch P Y n buses Pspec Qspec V) < tol ∧
          rmsOf P (nrMismatch P Y n buses Pspec Qspec V) < tol / 10 then
    .stopConv (nrRecOf P Y n buses Pspec Qspec it V)
  else
    match P.linsolve (nrJacobian P Y n buses V)
        ((nonSlackList buses n).length + (pqList buses n).length)
        (nrMismatch P Y n buses Pspec Qspec V) with
    | none => .stopSingular (nrRecOf P Y n buses Pspec Qspec it V)
    | some dX => .next (nrRecOf P Y n buses Pspec Qspec it V)
        (nrUpdateV P n buses it dX V)

/-- The `for it in range(max_iter)` loop of `NRLoadFlow.solve` with explicit
fuel; `iteration_data` starts empty on every call. -/
def nrLoop (P : Params) (Y : ℕ → ℕ → Cx) (n : ℕ) (buses : List Bus)
    (Pspec Qspec : ℕ → ℚ) (tol : ℚ) :
    ℕ → ℕ → (ℕ → Cx) → List NRRec → NROut
  | 0, _, V, acc => ⟨V, acc, false, false⟩
  | fuel + 1, it, V, acc =>
    match nrStep P Y n buses Pspec Qspec tol it V with
    | .stopEmpty => ⟨V, acc, true, false⟩
    | .stopConv r => ⟨V, acc ++ [r], true, false⟩
    | .stopSingular r => ⟨V, acc ++ [r], false, true⟩
    | .next r V' => nrLoop P Y n buses Pspec Qspec tol fuel (it + 1) V' (acc ++ [r])

/-- Embeds `NRLoadFlow.solve(tol, max_iter)` (line 232) up to the end of its
iteration loop: build the admittance matrix, extract bus parameters, run the
loop.  The method's non-convergence epilogue (lines 321-323), which can
raise, is embedded separately as `nrSolveRun`. -/
def nrSolve (P : Params) (buses : List Bus) (lines : List Line)
    (tol : ℚ) (maxIter : ℕ) : NROut :=
  nrLoop P (nrBuildYbus lines).1 buses.length buses (nrPspec buses)
    (nrQspec buses) tol maxIter 0 (nrInitV P buses) []

/-- Embeds the whole of `NRLoadFlow.solve` including its non-convergence
epilogue (lines 321-323): when the loop ends with `converged` false, the
method prints a warning and then `Final maximum mismatch: {max_mis:.2e}`.
`max_mis` is first assigned inside the loop body (line 249, reached by every
iteration that passes the empty-mismatch check), so when `max_iter = 0` the
loop body never runs, `converged` is still false, and that print raises
`UnboundLocalError` — the method does not return.  In every other case
(either converged, or at least one iteration ran and assigned `max_mis`) the
method returns `(V, iteration_data)` normally. -/
def nrSolveRun (P : Params) (buses : List Bus) (lines : List Line)
    (tol : ℚ) (maxIter : ℕ) : Except String NROut :=
  if (nrSolve P buses lines tol maxIter).converged = false ∧ maxIter = 0 then
    .error "UnboundLocalError: local variable max_mis referenced before assignment"
  else
    .ok (nrSolve P buses lines tol maxIter)

/-- The result of an ok `nrSolveRun` run. -/
def nrOutOf (r : Except String NROut) : NROut :=
  match r with
  | .ok o => o
  | .error _ => ⟨fun _ => 0, [], false, false⟩

/-! ### Newton-Raphson lemmas -/

theorem nrLoop_eq_empty (P : Params) (Y : ℕ → ℕ → Cx) (n : ℕ) (buses : List Bus)
    (Pspec Qspec : ℕ → ℚ) (tol : ℚ) (fuel it : ℕ) (V : ℕ → Cx) (acc : List NRRec)
    (h : nrStep P Y n buses Pspec Qspec tol it V = .stopEmpty) :
    nrLoop P Y n buses Pspec Qspec tol (fuel + 1) it V acc = ⟨V, acc, true, false⟩ := by
  unfold nrLoop; rw [h]

theorem nrLoop_eq_conv (P : Params) (Y : ℕ → ℕ → Cx) (n : ℕ) (buses : List Bus)
    (Pspec Qspec : ℕ → ℚ) (tol : ℚ) (fuel it : ℕ) (V : ℕ → Cx) (acc : List NRRec)
    (r : NRRec) (h : nrStep P Y n buses Pspec Qspec tol it V = .stopConv r) :
    nrLoop P Y n buses Pspec Qspec tol (fuel + 1) it V acc =
      ⟨V, acc ++ [r], true, false⟩ := by
  unfold nrLoop; rw [h]

theorem nrLoop_eq_singular (P : Params) (Y : ℕ → ℕ → Cx) (n : ℕ) (buses : List Bus)
    (Pspec Qspec : ℕ → ℚ) (tol : ℚ) (fuel it : ℕ) (V : ℕ → Cx) (acc : List NRRec)
    (r : NRRec) (h : nrStep P Y n buses Pspec Qspec tol it V = .stopSingular r) :
    nrLoop P Y n buses Pspec Qspec tol (fuel + 1) it V acc =
      ⟨V, acc ++ [r], false, true⟩ := by
  unfold nrLoop; rw [h]

theorem nrLoop_eq_next (P : Params) (Y : ℕ → ℕ → Cx) (n : ℕ) (buses : List Bus)
    (Pspec Qspec : ℕ → ℚ) (tol : ℚ) (fuel it : ℕ) (V : ℕ → Cx) (acc : List NRRec)
    (r : NRRec) (V' : ℕ → Cx)
    (h : nrStep P Y n buses Pspec Qspec tol it V = .next r V') :
    nrLoop P Y n buses Pspec Qspec tol (fuel + 1) it V acc =
      nrLoop P Y n buses Pspec Qspec tol fuel (it + 1) V' (acc ++ [r]) := by
  conv_lhs => unfold nrLoop
  rw [h]

theorem maxAbs_nonneg (l : List ℚ) : 0 ≤ maxAbs l := by
  unfold maxAbs
  have hgen : ∀ (m : List ℚ) (acc : ℚ), 0 ≤ acc → 0 ≤ m.foldl max acc := by
    intro m
    induction m with
    | nil => intro acc h; exact h
    | cons a t ih =>
      intro acc h
      simp only [List.foldl_cons]
      exact ih _ (le_trans h (le_max_left _ _))
  exact hgen _ 0 le_rfl

theorem nrLoop_not_conv_len (P : Params) (Y : ℕ → ℕ → Cx) (n : ℕ)
    (buses : List Bus) (Pspec Qspec : ℕ → ℚ) (tol : ℚ) :
    ∀ (fuel it : ℕ) (V : ℕ → Cx) (acc : List NRRec),
    (nrLoop P Y n buses Pspec Qspec tol fuel it V acc).converged = false →
    (nrLoop P Y n buses Pspec Qspec tol fuel it V acc).singular = false →
    (nrLoop P Y n buses Pspec Qspec tol fuel it V acc).trace.length =
      acc.length + fuel := by
  intro fuel
  induction fuel with
  | zero => intro it V acc _ _; simp [nrLoop]
  | succ k ih =>
    intro it V acc hconv hsing
    rcases hs : nrStep P Y n buses Pspec Qspec tol it V with _ | r | r | ⟨r, V'⟩
    · rw [nrLoop_eq_empty P Y n buses Pspec Qspec tol k it V acc hs] at hconv
      simp at hconv
    · rw [nrLoop_eq_conv P Y n buses Pspec Qspec tol k it V acc r hs] at hconv
      simp at hconv
    · rw [nrLoop_eq_singular P Y n buses Pspec Qspec tol k it V acc r hs] at hsing
      simp at hsing
    · rw [nrLoop_eq_next P Y n buses Pspec Qspec tol k it V acc r V' hs]
        at hconv hsing ⊢
      rw [ih _ _ _ hconv hsing]
      simp only [List.length_append, List.length_singleton]
      omega

theorem nrUpdAngles_not_mem (P : Params) (dX : List ℚ) (step : ℚ) (j : ℕ) :
    ∀ (l : List ℕ) (idx : ℕ) (V : ℕ → Cx), j ∉ l →
    nrUpdAngles P dX step l idx V j = V j := by
  intro l
  induction l with
  | nil => intro idx V _; rfl
  | cons a t ih =>
    intro idx V hj
    unfold nrUpdAngles
    rw [ih (idx + 1) _ (fun h => hj (List.mem_cons_of_mem a h))]
    exact updV_other _ _ _ _ (fun h => hj (h ▸ List.mem_cons_self a t))

theorem nrUpdMags_not_mem (P : Params) (dX : List ℚ) (step : ℚ) (j : ℕ) :
    ∀ (l : List ℕ) (idx : ℕ) (V : ℕ → Cx), j ∉ l →
    nrUpdMags P dX step l idx V j = V j := by
  intro l
  induction l with
  | nil => intro idx V _; rfl
  | cons a t ih =>
    intro idx V hj
    unfold nrUpdMags
    rw [ih (idx + 1) _ (fun h => hj (List.mem_cons_of_mem a h))]
    exact updV_other _ _ _ _ (fun h => hj (h ▸ List.mem_cons_self a t))

theorem slack_not_mem_pq (buses : List Bus) (n j : ℕ)
    (hj : typAt buses j = some 1) : j ∉ pqList buses n := by
  intro hmem
  unfold pqList at hmem
  have := List.of_mem_filter hmem
  rw [decide_eq_true_iff] at this
  rw [hj] at this
  cases Option.some.inj this

theorem slack_not_mem_pv (buses : List Bus) (n j : ℕ)
    (hj : typAt buses j = some 1) : j ∉ pvList buses n := by
  intro hmem
  unfold pvList at hmem
  have := List.of_mem_filter hmem
  rw [decide_eq_true_iff] at this
  rw [hj] at this
  cases Option.some.inj this

theorem slack_not_mem_nonSlack (buses : List Bus) (n j : ℕ)
    (hj : typAt buses j = some 1) : j ∉ nonSlackList buses n := by
  unfold nonSlackList
  rw [List.mem_append]
  rintro (h | h)
  · exact slack_not_mem_pv buses n j hj h
  · exact slack_not_mem_pq buses n j hj h

theorem nrUpdateV_slack (P : Params) (n : ℕ) (buses : List Bus) (it : ℕ)
    (dX : List ℚ) (V : ℕ → Cx) (j : ℕ) (hj : typAt buses j = some 1) :
    nrUpdateV P n buses it dX V j = V j := by
  unfold nrUpdateV
  rw [nrUpdMags_not_mem P dX _ j _ _ _ (slack_not_mem_pq buses n j hj)]
  exact nrUpdAngles_not_mem P dX _ j _ _ _ (slack_not_mem_nonSlack buses n j hj)

theorem nrStep_next_slack (P : Params) (Y : ℕ → ℕ → Cx) (n : ℕ)
    (buses : List Bus) (Pspec Qspec : ℕ → ℚ) (tol : ℚ) (it : ℕ) (V : ℕ → Cx)
    (j : ℕ) (r : NRRec) (V' : ℕ → Cx) (hj : typAt buses j = some 1)
    (hstep : nrStep P Y n buses Pspec Qspec tol it V = .next r V') :
    V' j = V j := by
  unfold nrStep at hstep
  by_cases hmis : nrMismatch P Y n buses Pspec Qspec V = []
  · rw [if_pos hmis] at hstep; cases hstep
  · rw [if_neg hmis] at hstep
    by_cases hcrit : maxAbs (nrMismatch P Y n buses Pspec Qspec V) < tol ∧
        rmsOf P (nrMismatch P Y n buses Pspec Qspec V) < tol / 10
    · rw [if_pos hcrit] at hstep; cases hstep
    · rw [if_neg hcrit] at hstep
      rcases hls : P.linsolve (nrJacobian P Y n buses V)
          ((nonSlackList buses n).length + (pqList buses n).length)
          (nrMismatch P Y n buses Pspec Qspec V) with _ | dX
      · rw [hls] at hstep; cases hstep
      · rw [hls] at hstep
        injection hstep with h1 h2
        rw [← h2]
        exact nrUpdateV_slack P n buses it dX V j hj

theorem nrLoop_slack (P : Params) (Y : ℕ → ℕ → Cx) (n : ℕ) (buses : List Bus)
    (Pspec Qspec : ℕ → ℚ) (tol : ℚ) (j : ℕ) (hj : typAt buses j = some 1) :
    ∀ (fuel it : ℕ) (V : ℕ → Cx) (acc : List NRRec),
    (nrLoop P Y n buses Pspec Qspec tol fuel it V acc).V j = V j := by
  intro fuel
  induction fuel with
  | zero => intro it V acc; rfl
  | succ k ih =>
    intro it V acc
    rcases hs : nrStep P Y n buses Pspec Qspec tol it V with _ | r | r | ⟨r, V'⟩
    · rw [nrLoop_eq_empty P Y n buses Pspec Qspec tol k it V acc hs]
    · rw [nrLoop_eq_conv P Y n buses Pspec Qspec tol k it V acc r hs]
    · rw [nrLoop_eq_singular P Y n buses Pspec Qspec tol k it V acc r hs]
    · rw [nrLoop_eq_next P Y n buses Pspec Qspec tol k it V acc r V' hs]
      exact (ih (it + 1) V' _).trans
        (nrStep_next_slack P Y n buses Pspec Qspec tol it V j r V' hj hs)

/-! ### Fast-Decoupled solver (`fast_decoupled.py`) -/

/-- Element type for `FastDecoupled.iter_data` records (iteration number and
maximum mismatch); with `solve` commented out, the list only ever holds its
initial empty value. -/
structure FDRec where
  iteration : ℕ
  maxMis : ℚ
deriving DecidableEq, Repr

/-- The instance state set up by `FastDecoupled.__init__`
(`src/algorithms/fast_decoupled.py` lines 5-12).  The constructor is the
class's only executable member: every other method — `build_ybus`,
`_extract_bus_params`, `solve`, `get_results_summary` — is commented out
(lines 14-167), and `gui.py` imports and offers only the Newton-Raphson and
Gauss-Seidel solvers, so the program provides no Fast-Decoupled solve
operation. -/
structure FDInst where
  bus_data : List Bus
  line_data : List Line
  Sbase : ℚ
  Ybus : Option YMat
  V_final : Option (List Cx)
  iter_data : List FDRec
  converged : Bool

/-- Embeds `FastDecoupled.__init__(bus_data, line_data, Sbase=1)`: stores the
tables and initialises `Ybus = None`, `V_final = None`, `iter_data = []`,
`converged = False`. -/
def fdInit (bus_data : List Bus) (line_data : List Line) (Sbase : ℚ) : FDInst :=
  ⟨bus_data, line_data, Sbase, none, none, [], false⟩

/-! ### Claim theorems -/

/-- C1 — code-bug record: the program provides no Fast-Decoupled solution
strategy.  The only executable member of `FastDecoupled` is its constructor,
so every instance carries `converged = false`, an empty `iter_data`, and no
admittance matrix or final voltages, and nothing in the class can ever
change that: calling `solve` on an instance raises `AttributeError`, the
whole method body being commented out (its commented text, for the record,
divides the mismatches by `|V|` before its stop test, so even it does not
stop on raw `max|ΔP|`/`max|ΔQ|`). -/
theorem C1_fd_solver_absent (bus_data : List Bus) (line_data : List Line)
    (Sbase : ℚ) :
    (fdInit bus_data line_data Sbase).converged = false ∧
    (fdInit bus_data line_data Sbase).iter_data = [] ∧
    (fdInit bus_data line_data Sbase).Ybus = none ∧
    (fdInit bus_data line_data Sbase).V_final = none :=
  ⟨rfl, rfl, rfl, rfl⟩

/-- C5 — Newton-Raphson declares convergence at an iteration (with a
nonempty mismatch vector) iff both `max|mismatch| < tol` and
`RMS(mismatch) < tol/10` hold there; when either fails, the iteration
assembles the Jacobian and hands it to the linear solver, then either aborts
(singular Jacobian) or applies the update. -/
theorem C5_nr_convergence_criterion (P : Params) (Y : ℕ → ℕ → Cx) (n : ℕ)
    (buses : List Bus) (Pspec Qspec : ℕ → ℚ) (tol : ℚ) (it : ℕ) (V : ℕ → Cx)
    (h : nrMismatch P Y n buses Pspec Qspec V ≠ []) :
    ((∃ r : NRRec, nrStep P Y n buses Pspec Qspec tol it V = .stopConv r) ↔
      maxAbs (nrMismatch P Y n buses Pspec Qspec V) < tol ∧
      rmsOf P (nrMismatch P Y n buses Pspec Qspec V) < tol / 10) ∧
    (¬(maxAbs (nrMismatch P Y n buses Pspec Qspec V) < tol ∧
       rmsOf P (nrMismatch P Y n buses Pspec Qspec V) < tol / 10) →
      (P.linsolve (nrJacobian P Y n buses V)
          ((nonSlackList buses n).length + (pqList buses n).length)
          (nrMismatch P Y n buses Pspec Qspec V) = none ∧
        nrStep P Y n buses Pspec Qspec tol it V =
          .stopSingular (nrRecOf P Y n buses Pspec Qspec it V)) ∨
      (∃ dX : List ℚ, P.linsolve (nrJacobian P Y n buses V)
          ((nonSlackList buses n).length + (pqList buses n).length)
          (nrMismatch P Y n buses Pspec Qspec V) = some dX ∧
        nrStep P Y n buses Pspec Qspec tol it V =
          .next (nrRecOf P Y n buses Pspec Qspec it V)
            (nrUpdateV P n buses it dX V))) := by
  unfold nrStep
  rw [if_neg h]
  by_cases hcrit : maxAbs (nrMismatch P Y n buses Pspec Qspec V) < tol ∧
      rmsOf P (nrMismatch P Y n buses Pspec Qspec V) < tol / 10
  · rw [if_pos hcrit]
    exact ⟨⟨fun _ => hcrit, fun _ => ⟨_, rfl⟩⟩, fun hn => absurd hcrit hn⟩
  · rw [if_neg hcrit]
    rcases hls : P.linsolve (nrJacobian P Y n buses V)
        ((nonSlackList buses n).length + (pqList buses n).length)
        (nrMismatch P Y n buses Pspec Qspec V) with _ | dX
    · dsimp only
      refine ⟨⟨?_, fun hcc => absurd hcc hcrit⟩, fun _ => Or.inl ⟨rfl, rfl⟩⟩
      rintro ⟨r, hr⟩
      cases hr
    · dsimp only
      refine ⟨⟨?_, fun hcc => absurd hcc hcrit⟩, fun _ => Or.inr ⟨dX, rfl, rfl⟩⟩
      rintro ⟨r, hr⟩
      cases hr

/-- All-trivial parameter pack used by witnesses (the linear solver reports
singularity). -/
def wP0 : Params :=
  ⟨fun _ => 0, fun _ => 0, fun _ => 0, fun _ => 0, fun _ => 0,
   fun _ => 0, fun _ => ⟨1, 0⟩, fun _ _ _ => none⟩

/-- Parameter pack whose linear solver always returns the empty correction. -/
def wPsome : Params :=
  ⟨fun _ => 0, fun _ => 0, fun _ => 0, fun _ => 0, fun _ => 0,
   fun _ => 0, fun _ => ⟨1, 0⟩, fun _ _ _ => some []⟩

def wSlack : Bus := ⟨1, 21/20, 0, 0, 0, 0, 0⟩

def wPQ : Bus := ⟨3, 1, 0, 0, 0, 0, 0⟩

def wBuses : List Bus := [wSlack, wPQ]

def wNet : Net := ⟨wBuses, none, [], 1⟩

def wInst : GSInst := ⟨wNet, [], none⟩

/-- Witness for C5 on a two-bus (slack + PQ) system. -/
theorem C5_nr_convergence_criterion_witness :
    nrMismatch wPsome (fun _ _ => 0) 2 wBuses (fun _ => 0) (fun _ => 0)
        (fun _ => 1) ≠ [] ∧
    ((∃ r : NRRec, nrStep wPsome (fun _ _ => 0) 2 wBuses (fun _ => 0) (fun _ => 0)
        0 0 (fun _ => 1) = .stopConv r) ↔
      maxAbs (nrMismatch wPsome (fun _ _ => 0) 2 wBuses (fun _ => 0) (fun _ => 0)
        (fun _ => 1)) < 0 ∧
      rmsOf wPsome (nrMismatch wPsome (fun _ _ => 0) 2 wBuses (fun _ => 0)
        (fun _ => 0) (fun _ => 1)) < 0 / 10) := by
  have hne : nrMismatch wPsome (fun _ _ => 0) 2 wBuses (fun _ => 0) (fun _ => 0)
      (fun _ => 1) ≠ [] := by
    unfold nrMismatch
    intro hc
    have := congrArg List.length hc
    simp [wBuses, wSlack, wPQ, typAt, show List.range 2 = [0, 1] from rfl] at this
  exact ⟨hne, (C5_nr_convergence_criterion wPsome (fun _ _ => 0) 2 wBuses
    (fun _ => 0) (fun _ => 0) 0 0 (fun _ => 1) hne).1⟩

/-- C6 — A network consisting of the slack bus alone converges with an empty
iteration trace, returning the slack set-point voltage unchanged. -/
theorem C6_slack_only_network (P : Params) (b : Bus) (tol : ℚ) (maxIter : ℕ)
    (hb : b.typ = 1) (hmi : 1 ≤ maxIter) :
    (nrSolve P [b] [] tol maxIter).converged = true ∧
    (nrSolve P [b] [] tol maxIter).trace = [] ∧
    (nrSolve P [b] [] tol maxIter).V 0 = b.Vset • P.cis (P.radians b.thetaSet) := by
  obtain ⟨k, rfl⟩ : ∃ k, maxIter = k + 1 :=
    ⟨maxIter - 1, (Nat.succ_pred_eq_of_pos hmi).symm⟩
  have hty : typAt [b] 0 = some 1 := by simp [typAt, hb]
  have hmis : nrMismatch P (nrBuildYbus []).1 [b].length [b] (nrPspec [b])
      (nrQspec [b]) (nrInitV P [b]) = [] := by
    unfold nrMismatch
    have hr1 : List.range [b].length = [0] := rfl
    rw [hr1]
    simp [hty]
  have hstep : nrStep P (nrBuildYbus []).1 [b].length [b] (nrPspec [b])
      (nrQspec [b]) tol 0 (nrInitV P [b]) = .stopEmpty := by
    unfold nrStep
    rw [if_pos hmis]
  have hrun : nrSolve P [b] [] tol (k + 1) = ⟨nrInitV P [b], [], true, false⟩ := by
    unfold nrSolve
    exact nrLoop_eq_empty _ _ _ _ _ _ _ k 0 _ [] hstep
  rw [hrun]
  refine ⟨rfl, rfl, ?_⟩
  show nrInitV P [b] 0 = b.Vset • P.cis (P.radians b.thetaSet)
  show (if b.typ = 1 then b.Vset • P.cis (P.radians b.thetaSet)
    else if b.typ = 2 then (⟨b.Vset, 0⟩ : Cx) else ⟨95/100, -(5/100)⟩) = _
  rw [if_pos hb]

/-- Witness for C6 at a concrete slack bus. -/
theorem C6_slack_only_network_witness :
    wSlack.typ = 1 ∧ 1 ≤ 20 ∧
    ((nrSolve wP0 [wSlack] [] 1 20).converged = true ∧
     (nrSolve wP0 [wSlack] [] 1 20).trace = [] ∧
     (nrSolve wP0 [wSlack] [] 1 20).V 0 =
       wSlack.Vset • wP0.cis (wP0.radians wSlack.thetaSet)) :=
  ⟨rfl, by decide, C6_slack_only_network wP0 wSlack 1 20 rfl (by decide)⟩

/-- The `converged` flag of an ok `gsSolve` run (`true` for a raised run,
which never reports non-convergence). -/
def convOf (r : Except String GSOut) : Bool :=
  match r with
  | .ok o => o.converged
  | .error _ => true

/-- The final voltage vector of an ok `gsSolve` run. -/
def VOf (r : Except String GSOut) : ℕ → Cx :=
  match r with
  | .ok o => o.V
  | .error _ => fun _ => 0

/-- C2 counterexample — the claim fails at `max_iter = 0`: the (empty)
iteration budget is exhausted without meeting the convergence criterion,
`converged` is still false, and `NRLoadFlow.solve` raises `UnboundLocalError`
at its `Final maximum mismatch` print (the local `max_mis` is only assigned
inside the loop body, which never ran) instead of returning a result. -/
theorem C2_counterexample_zero_budget_raises :
    isErr (nrSolveRun wP0 wBuses [] 1 0) = true := rfl

/-- C2 amended — For `max_iter ≥ 1`, Newton-Raphson returns normally when it
exhausts its budget (no raise), and whenever that run ends not-converged and
without a singular abort its result holds the final voltage vector, the
internal converged-flag `false`, and one trace record per iteration
(`trace.length = max_iter`).  Gauss-Seidel returns normally for every
`max_iter` (its epilogue touches no loop-local), with the same trace-length
property on a fresh instance.  In both solvers the flag is the internal
`converged` local, surfaced only through a console warning: the returned
`(V, iter_data)` tuple itself carries no flag. -/
theorem C2_amended_max_iter_exhausted :
    (∀ (P : Params) (buses : List Bus) (ls : List Line) (tol : ℚ) (mi : ℕ),
      1 ≤ mi →
      isErr (nrSolveRun P buses ls tol mi) = false ∧
      ((nrOutOf (nrSolveRun P buses ls tol mi)).converged = false →
       (nrOutOf (nrSolveRun P buses ls tol mi)).singular = false →
       (nrOutOf (nrSolveRun P buses ls tol mi)).trace.length = mi)) ∧
    (∀ (P : Params) (g : GSInst) (tol : ℚ) (mi : ℕ) (alpha : ℚ),
      isErr (gsSolve P g tol mi alpha) = false →
      convOf (gsSolve P g tol mi alpha) = false →
      g.iterData = [] →
      (trOf (gsSolve P g tol mi alpha)).length = mi) := by
  constructor
  · intro P buses ls tol mi hmi
    have hcond : ¬((nrSolve P buses ls tol mi).converged = false ∧ mi = 0) := by
      rintro ⟨_, h0⟩
      omega
    unfold nrSolveRun
    rw [if_neg hcond]
    refine ⟨rfl, ?_⟩
    intro hconv hsing
    simp only [nrOutOf] at hconv hsing ⊢
    unfold nrSolve at hconv hsing ⊢
    have := nrLoop_not_conv_len P (nrBuildYbus ls).1 buses.length buses
      (nrPspec buses) (nrQspec buses) tol mi 0 (nrInitV P buses) [] hconv hsing
    simpa using this
  · intro P g tol mi alpha herr hconv hfresh
    cases hb : gsBuildYbus g.net.lines with
    | error e =>
      rw [gsSolve_error_eq P g tol mi alpha e hb] at hconv
      simp [convOf] at hconv
    | ok Y =>
      rw [gsSolve_ok_eq P g tol mi alpha Y hb] at hconv ⊢
      simp only [convOf] at hconv
      simp only [trOf]
      have hlen := gsLoop_not_converged_len P Y g.net.buses.length g.net
        (gPspec g.net) (gQspec g.net) alpha tol mi 0
        (gsInitV P g.net.buses) g.iterData hconv
      rw [hfresh] at hlen ⊢
      simpa using hlen

/-- Witness for C2's amended statement: Newton-Raphson with a one-iteration
budget, and Gauss-Seidel on a fresh two-bus instance with `tol = 0` and one
iteration (a run that genuinely exhausts its budget unconverged). -/
theorem C2_amended_max_iter_exhausted_witness :
    (1 ≤ 1 ∧
     (isErr (nrSolveRun wP0 wBuses [] 1 1) = false ∧
      ((nrOutOf (nrSolveRun wP0 wBuses [] 1 1)).converged = false →
       (nrOutOf (nrSolveRun wP0 wBuses [] 1 1)).singular = false →
       (nrOutOf (nrSolveRun wP0 wBuses [] 1 1)).trace.length = 1))) ∧
    (isErr (gsSolve wP0 wInst 0 1 1) = false ∧
     convOf (gsSolve wP0 wInst 0 1 1) = false ∧
     wInst.iterData = [] ∧
     (trOf (gsSolve wP0 wInst 0 1 1)).length = 1) := by
  refine ⟨⟨by decide, C2_amended_max_iter_exhausted.1 wP0 wBuses [] 1 1 (by decide)⟩,
    rfl, ?hc, rfl, ?_⟩
  case hc => rfl
  exact C2_amended_max_iter_exhausted.2 wP0 wInst 0 1 1 rfl rfl rfl

/-- Exactly one bus of the table is a slack bus (type code 1). -/
def oneSlack (buses : List Bus) : Prop :=
  ((List.range buses.length).filter (fun i => typAt buses i = some 1)).length = 1

instance (buses : List Bus) : Decidable (oneSlack buses) := by
  unfold oneSlack; infer_instance

/-- C4 — For a network with exactly one slack bus, the slack bus's voltage
is bit-identical before and after every iteration of both solvers present in
the source: a Newton-Raphson step that continues writes only non-slack
entries, the whole Newton-Raphson solve leaves the slack entry at its
initial value, and likewise for a Gauss-Seidel sweep and the whole
Gauss-Seidel solve. -/
theorem C4_slack_invariance :
    (∀ (P : Params) (Y : ℕ → ℕ → Cx) (n : ℕ) (buses : List Bus)
       (Pspec Qspec : ℕ → ℚ) (tol : ℚ) (it : ℕ) (V : ℕ → Cx) (j : ℕ)
       (r : NRRec) (V' : ℕ → Cx),
       oneSlack buses → typAt buses j = some 1 →
       nrStep P Y n buses Pspec Qspec tol it V = .next r V' → V' j = V j) ∧
    (∀ (P : Params) (buses : List Bus) (ls : List Line) (tol : ℚ) (mi : ℕ)
       (j : ℕ), oneSlack buses → typAt buses j = some 1 →
       (nrSolve P buses ls tol mi).V j = nrInitV P buses j) ∧
    (∀ (P : Params) (Y : ℕ → ℕ → Cx) (net : Net) (Pspec Qspec : ℕ → ℚ)
       (alpha : ℚ) (V : ℕ → Cx) (j : ℕ),
       oneSlack net.buses → typAt net.buses j = some 1 →
       (gsSweep P Y net.buses.length net Pspec Qspec alpha V).1 j = V j) ∧
    (∀ (P : Params) (g : GSInst) (tol : ℚ) (mi : ℕ) (alpha : ℚ) (j : ℕ),
       oneSlack g.net.buses → typAt g.net.buses j = some 1 →
       isErr (gsSolve P g tol mi alpha) = false →
       VOf (gsSolve P g tol mi alpha) j = gsInitV P g.net.buses j) := by
  refine ⟨?_, ?_, ?_, ?_⟩
  · intro P Y n buses Pspec Qspec tol it V j r V' _ hj hstep
    exact nrStep_next_slack P Y n buses Pspec Qspec tol it V j r V' hj hstep
  · intro P buses ls tol mi j _ hj
    unfold nrSolve
    exact nrLoop_slack P (nrBuildYbus ls).1 buses.length buses (nrPspec buses)
      (nrQspec buses) tol j hj mi 0 (nrInitV P buses) []
  · intro P Y net Pspec Qspec alpha V j _ hj
    exact gsSweep_slack P Y net.buses.length net Pspec Qspec alpha V j hj
  · intro P g tol mi alpha j _ hj herr
    cases hb : gsBuildYbus g.net.lines with
    | error e =>
      rw [gsSolve_error_eq P g tol mi alpha e hb] at herr
      cases herr
    | ok Y =>
      rw [gsSolve_ok_eq P g tol mi alpha Y hb]
      simp only [VOf]
      exact gsLoop_slack P Y g.net (gPspec g.net) (gQspec g.net) alpha tol j hj
        mi 0 (gsInitV P g.net.buses) g.iterData

/-- Witness for C4 on the two-bus slack+PQ system: a continuing
Newton-Raphson step, a full Newton-Raphson solve, one Gauss-Seidel sweep and
a full Gauss-Seidel solve all leave the slack voltage untouched. -/
theorem C4_slack_invariance_witness :
    (oneSlack wBuses ∧ typAt wBuses 0 = some 1 ∧
      nrStep wPsome (fun _ _ => 0) 2 wBuses (fun _ => 0) (fun _ => 0) 0 0
          (fun _ => 1) =
        .next (nrRecOf wPsome (fun _ _ => 0) 2 wBuses (fun _ => 0) (fun _ => 0)
            0 (fun _ => 1))
          (nrUpdateV wPsome 2 wBuses 0 [] (fun _ => 1)) ∧
      nrUpdateV wPsome 2 wBuses 0 [] (fun _ => 1) 0 = (fun _ => (1 : Cx)) 0) ∧
    ((nrSolve wP0 wBuses [] 1 7).V 0 = nrInitV wP0 wBuses 0) ∧
    ((gsSweep wP0 (fun _ _ => 0) wNet.buses.length wNet (fun _ => 0)
        (fun _ => 0) 1 (fun _ => 1)).1 0 = (fun _ => (1 : Cx)) 0) ∧
    (isErr (gsSolve wP0 wInst 0 1 1) = false ∧
      VOf (gsSolve wP0 wInst 0 1 1) 0 = gsInitV wP0 wInst.net.buses 0) := by
  have hone : oneSlack wBuses := by decide
  have hty : typAt wBuses 0 = some 1 := rfl
  have hmisne : nrMismatch wPsome (fun _ _ => 0) 2 wBuses (fun _ => 0)
      (fun _ => 0) (fun _ => 1) ≠ [] := by
    unfold nrMismatch
    intro hc
    have := congrArg List.length hc
    simp [wBuses, wSlack, wPQ, typAt, show List.range 2 = [0, 1] from rfl] at this
  have hstep : nrStep wPsome (fun _ _ => 0) 2 wBuses (fun _ => 0) (fun _ => 0)
      0 0 (fun _ => 1) =
      .next (nrRecOf wPsome (fun _ _ => 0) 2 wBuses (fun _ => 0) (fun _ => 0)
          0 (fun _ => 1))
        (nrUpdateV wPsome 2 wBuses 0 [] (fun _ => 1)) := by
    unfold nrStep
    rw [if_neg hmisne]
    rw [if_neg (fun hc => absurd hc.1 (not_lt.mpr (maxAbs_nonneg _)))]
    rfl
  refine ⟨⟨hone, hty, hstep, ?_⟩, ?_, ?_, rfl, ?_⟩
  · exact C4_slack_invariance.1 wPsome (fun _ _ => 0) 2 wBuses (fun _ => 0)
      (fun _ => 0) 0 0 (fun _ => 1) 0 _ _ hone hty hstep
  · exact C4_slack_invariance.2.1 wP0 wBuses [] 1 7 0 hone hty
  · exact C4_slack_invariance.2.2.1 wP0 (fun _ _ => 0) wNet (fun _ => 0)
      (fun _ => 0) 1 (fun _ => 1) 0 hone hty
  · exact C4_slack_invariance.2.2.2 wP0 wInst 0 1 1 0 hone hty rfl

/-- C9 — The initial voltage policy: Newton-Raphson starts PQ buses at the
fixed constant `0.95 - 0.05j` and PV buses at `(|V|_set, 0)`; Gauss-Seidel
starts every non-slack bus at `0.95 - 0.05j`.  In the PQ/non-slack cases the
bus record's voltage-magnitude and angle columns do not appear in the
starting value at all. -/
theorem C9_initial_voltage_policy :
    (∀ (P : Params) (buses : List Bus) (i : ℕ) (b : Bus),
      buses.get? i = some b →
      (b.typ = 3 → nrInitV P buses i = ⟨95/100, -(5/100)⟩) ∧
      (b.typ = 2 → nrInitV P buses i = ⟨b.Vset, 0⟩)) ∧
    (∀ (P : Params) (buses : List Bus) (i : ℕ) (b : Bus),
      buses.get? i = some b → b.typ ≠ 1 →
      gsInitV P buses i = ⟨95/100, -(5/100)⟩) := by
  constructor
  · intro P buses i b hget
    constructor
    · intro h3
      unfold nrInitV
      rw [hget]
      simp only [h3]
      norm_num
    · intro h2
      unfold nrInitV
      rw [hget]
      simp only [h2]
      norm_num
  · intro P buses i b hget h1
    exact gsInitV_nonslack P buses i b hget h1

/-- Witness for C9 at concrete PQ and PV bus records whose voltage columns
hold values distinct from the fixed initial constant. -/
theorem C9_initial_voltage_policy_witness :
    ([wSlack, wPQ].get? 1 = some wPQ ∧
     (wPQ.typ = 3 → nrInitV wP0 [wSlack, wPQ] 1 = ⟨95/100, -(5/100)⟩) ∧
     (wPQ.typ = 2 → nrInitV wP0 [wSlack, wPQ] 1 = ⟨wPQ.Vset, 0⟩)) ∧
    ([⟨1, 1, 0, 0, 0, 0, 0⟩, (⟨2, 103/100, 30, 0, 0, 0, 0⟩ : Bus)].get? 1 =
        some ⟨2, 103/100, 30, 0, 0, 0, 0⟩ ∧
     nrInitV wP0 [⟨1, 1, 0, 0, 0, 0, 0⟩, ⟨2, 103/100, 30, 0, 0, 0, 0⟩] 1 =
        ⟨103/100, 0⟩) ∧
    ([wSlack, wPQ].get? 1 = some wPQ ∧ wPQ.typ ≠ 1 ∧
     gsInitV wP0 [wSlack, wPQ] 1 = ⟨95/100, -(5/100)⟩) := by
  refine ⟨⟨rfl, (C9_initial_voltage_policy.1 wP0 [wSlack, wPQ] 1 wPQ rfl).1,
    (C9_initial_voltage_policy.1 wP0 [wSlack, wPQ] 1 wPQ rfl).2⟩,
    ⟨rfl, ?_⟩, rfl, by decide, ?_⟩
  · exact (C9_initial_voltage_policy.1 wP0
      [⟨1, 1, 0, 0, 0, 0, 0⟩, ⟨2, 103/100, 30, 0, 0, 0, 0⟩] 1
      ⟨2, 103/100, 30, 0, 0, 0, 0⟩ rfl).2 rfl
  · exact C9_initial_voltage_policy.2 wP0 [wSlack, wPQ] 1 wPQ rfl (by decide)
